import Mathlib

/-!
Verification of the window-management core of dwm (files src/dwm.c and
src/config.def.h) against its natural-language specification.

The C data structures (Client, Monitor) are embedded shallowly as Lean
structures.  Pointer-linked client lists are represented as Lean lists kept in
document order; the focus stack is a list of client ids.  C `int` fields become
`Int`, C `unsigned int` fields become `Nat` (with explicit conversions where the
C code mixes the two; none of the values handled by the theorems below comes
near the 2^32 wrap).  C `float` fields become `Rat`; the cast of a float to an
integer truncates toward zero, which `mulTrunc` and `truncToInt` reproduce
exactly (the float products computed by the code, such as windowWidth times a
master factor of 0.5, are exact in single precision at screen magnitudes).

The X server is not modelled, with one exception: the border width that
resizeclient sends over the wire (XConfigureWindow) is mirrored in the ghost
field `xBorder`, because the borderless branch of resizeclient deliberately
de-synchronises the stored border width from the wire border width, and several
spec claims are about the border-inclusive on-screen footprint.
-/

namespace Dwm

/-- Truncation of a rational toward zero, matching a C cast from float/double
to int. -/
def truncToInt (q : ℚ) : Int := q.num.tdiv q.den

/-- Product of a C int with a C float, truncated toward zero by assignment to
an integer variable, computed exactly. -/
def mulTrunc (a : Int) (q : ℚ) : Int := (a * q.num).tdiv q.den

/-- C MAX macro on int. -/
def cMAX (a b : Int) : Int := if a > b then a else b

/-- C MIN macro on int. -/
def cMIN (a b : Int) : Int := if a < b then a else b

/-- Configuration constant resizeHints from config.def.h (value 1). -/
def resizeHints : Bool := true

/-- Configuration constant snap from config.def.h (value 32). -/
def snap : Int := 32

/-- Number of entries of the tags array in config.def.h. -/
def tagsLength : Nat := 9

/-- The TAGMASK macro: (1 << LENGTH(tags)) - 1. -/
def TAGMASK : Nat := (1 <<< tagsLength) - 1

/-- The four arrange functions of the layout catalog in config.def.h;
`floatL` stands for the NULL arrange pointer (floating behaviour). -/
inductive LayoutKind
  | dwindleL
  | tileL
  | floatL
  | monocleL
  deriving DecidableEq

/-- Whether the layout has a non-NULL arrange function. -/
def hasArrange : LayoutKind → Bool
  | .floatL => false
  | _ => true

/-- Symbol of each catalog entry in config.def.h. -/
def layoutSymbolOf : LayoutKind → String
  | .dwindleL => "D"
  | .tileL => "T"
  | .floatL => "F"
  | .monocleL => "M"

/-- The Client struct of dwm.c.  The window handle is replaced by a numeric
id (pointer equality on clients becomes id equality); the name field and the
X-protocol handle are omitted, no claim mentions them.  `xBorder` is the ghost
wire border width described in the header comment. -/
structure Client where
  id : Nat
  x : Int
  y : Int
  w : Int
  h : Int
  oldx : Int
  oldy : Int
  oldw : Int
  oldh : Int
  basew : Int
  baseh : Int
  incw : Int
  inch : Int
  maxw : Int
  maxh : Int
  minw : Int
  minh : Int
  mina : ℚ
  maxa : ℚ
  borderWidth : Int
  oldBorderWidth : Int
  tags : Nat
  isFixed : Bool
  isFloating : Bool
  isUrgent : Bool
  neverFocus : Bool
  oldState : Bool
  isFullscreen : Bool
  xBorder : Int
  deriving DecidableEq

/-- The Monitor struct of dwm.c.  The two-slot layout ring (layouts[2] plus
selectedLayout) is collapsed to the single active entry `layout`, since no
claim exercises slot switching; `clients` is the singly linked client list in
order, `stack` the focus stack as a list of client ids, `selectedClient` the
selected-client pointer as an optional id.  nMaster is kept as Nat: it is a C
int, but createMonitor initialises it to the nonnegative config value and
incnmaster clamps it at zero, so it is never negative. -/
structure Monitor where
  layoutSymbol : String
  masterFactor : ℚ
  nMaster : Nat
  monitorX : Int
  monitorY : Int
  monitorWidth : Int
  monitorHeight : Int
  windowX : Int
  windowY : Int
  windowWidth : Int
  windowHeight : Int
  selectedTags : Nat
  tagSet0 : Nat
  tagSet1 : Nat
  layout : LayoutKind
  clients : List Client
  stack : List Nat
  selectedClient : Option Nat
  deriving DecidableEq

/-- Globals of dwm.c that are fixed at startup: the root screen size and the
bar height (computed from the font at runtime). -/
structure Ctx where
  screenWidth : Int
  screenHeight : Int
  barHeight : Int
  deriving DecidableEq

/-- The tag set currently viewed on the monitor: tagSet[selectedTags]. -/
def monTagset (m : Monitor) : Nat :=
  if m.selectedTags = 0 then m.tagSet0 else m.tagSet1

/-- The ISVISIBLEONTAG macro. -/
def isVisibleOnTag (c : Client) (t : Nat) : Bool := c.tags &&& t != 0

/-- The ISVISIBLE macro. -/
def isVisible (m : Monitor) (c : Client) : Bool := isVisibleOnTag c (monTagset m)

/-- The WIDTH macro: w plus both borders. -/
def widthOf (c : Client) : Int := c.w + 2 * c.borderWidth

/-- The HEIGHT macro: h plus both borders. -/
def heightOf (c : Client) : Int := c.h + 2 * c.borderWidth

/-- A proposed or final geometry quadruple. -/
structure Geom where
  x : Int
  y : Int
  w : Int
  h : Int
  deriving DecidableEq

/-- Looking a client up by id, modelling a pointer dereference. -/
def findClient (m : Monitor) (cid : Nat) : Option Client :=
  m.clients.find? (fun c => c.id = cid)

/-- Writing back a client record through its pointer. -/
def updateClient (m : Monitor) (c : Client) : Monitor :=
  { m with clients := m.clients.map (fun d => if d.id = c.id then c else d) }

/-- The applysizehints function of dwm.c (lines 315..379), translated
statement by statement.  The quadruple replaces the int pointers, the Bool
result is the returned change flag. -/
def applysizehints (ctx : Ctx) (m : Monitor) (c : Client)
    (x0 y0 w0 h0 : Int) (interact : Bool) : Geom × Bool :=
  let w1 := cMAX 1 w0
  let h1 := cMAX 1 h0
  let x1 := if interact then
      (if x0 > ctx.screenWidth then ctx.screenWidth - widthOf c else x0)
    else
      (if x0 ≥ m.windowX + m.windowWidth then
        m.windowX + m.windowWidth - widthOf c else x0)
  let y1 := if interact then
      (if y0 > ctx.screenHeight then ctx.screenHeight - heightOf c else y0)
    else
      (if y0 ≥ m.windowY + m.windowHeight then
        m.windowY + m.windowHeight - heightOf c else y0)
  let x2 := if interact then
      (if x1 + w1 + 2 * c.borderWidth < 0 then 0 else x1)
    else
      (if x1 + w1 + 2 * c.borderWidth ≤ m.windowX then m.windowX else x1)
  let y2 := if interact then
      (if y1 + h1 + 2 * c.borderWidth < 0 then 0 else y1)
    else
      (if y1 + h1 + 2 * c.borderWidth ≤ m.windowY then m.windowY else y1)
  let h2 := if h1 < ctx.barHeight then ctx.barHeight else h1
  let w2 := if w1 < ctx.barHeight then ctx.barHeight else w1
  if resizeHints || c.isFloating || !(hasArrange m.layout) then
    let baseismin : Bool := c.basew == c.minw && c.baseh == c.minh
    let w3 := if !baseismin then w2 - c.basew else w2
    let h3 := if !baseismin then h2 - c.baseh else h2
    let w4 :=
      if 0 < c.mina ∧ 0 < c.maxa then
        (if c.maxa < (w3 : ℚ) / (h3 : ℚ) then truncToInt ((h3 : ℚ) * c.maxa + 1/2)
         else w3)
      else w3
    let h4 :=
      if 0 < c.mina ∧ 0 < c.maxa then
        (if c.maxa < (w3 : ℚ) / (h3 : ℚ) then h3
         else if c.mina < (h3 : ℚ) / (w3 : ℚ) then truncToInt ((w3 : ℚ) * c.mina + 1/2)
         else h3)
      else h3
    let w5 := if baseismin then w4 - c.basew else w4
    let h5 := if baseismin then h4 - c.baseh else h4
    let w6 := if c.incw ≠ 0 then w5 - w5.tmod c.incw else w5
    let h6 := if c.inch ≠ 0 then h5 - h5.tmod c.inch else h5
    let w7 := cMAX (w6 + c.basew) c.minw
    let h7 := cMAX (h6 + c.baseh) c.minh
    let w8 := if c.maxw ≠ 0 then cMIN w7 c.maxw else w7
    let h8 := if c.maxh ≠ 0 then cMIN h7 c.maxh else h7
    (⟨x2, y2, w8, h8⟩, x2 != c.x || y2 != c.y || w8 != c.w || h8 != c.h)
  else
    (⟨x2, y2, w2, h2⟩, x2 != c.x || y2 != c.y || w2 != c.w || h2 != c.h)

end Dwm

namespace Dwm

/-- The nexttiled walk of dwm.c starting from a given list position: the first
client that is neither floating nor hidden. -/
def nexttiledList (m : Monitor) : List Client → Option Client
  | [] => none
  | c :: rest =>
    if c.isFloating || !(isVisible m c) then nexttiledList m rest else some c

/-- The tail of the client list strictly after the client with the given id
(the next pointer of that client). -/
def listAfter (cid : Nat) : List Client → List Client
  | [] => []
  | c :: rest => if c.id = cid then rest else listAfter cid rest

/-- The resizeclient function of dwm.c (lines 1329..1350).  The borderless
branch (sole visible tiled client, or monocle arrange) widens the stored
geometry by both borders and sends wire border 0. -/
def resizeclient (m : Monitor) (c : Client) (x y w h : Int) : Monitor :=
  let c1 : Client :=
    { c with oldx := c.x, x := x, oldy := c.y, y := y,
             oldw := c.w, w := w, oldh := c.h, h := h }
  let sole : Bool :=
    ((nexttiledList m m.clients).map Client.id == some c.id)
      && ((nexttiledList m (listAfter c.id m.clients)).map Client.id == none)
  if (sole || m.layout == LayoutKind.monocleL)
      && !c.isFullscreen && !c.isFloating && hasArrange m.layout then
    updateClient m { c1 with w := w + 2 * c.borderWidth,
                             h := h + 2 * c.borderWidth, xBorder := 0 }
  else
    updateClient m { c1 with xBorder := c.borderWidth }

/-- The resize function of dwm.c: apply the size hints and reconfigure only on
change. -/
def resize (ctx : Ctx) (m : Monitor) (c : Client)
    (x y w h : Int) (interact : Bool) : Monitor :=
  let r := applysizehints ctx m c x y w h interact
  if r.2 then resizeclient m c r.1.x r.1.y r.1.w r.1.h else m

end Dwm

namespace Dwm

/-! Helper characterisations of applysizehints for clients without size hints,
used by several claims below.  These are derived forms proved equal to the
source translation, not themselves source translations. -/

/-- Value of the x component computed by applysizehints (for any client: the
position clamps do not depend on the hint fields). -/
def nohintsX (ctx : Ctx) (m : Monitor) (c : Client) (x w : Int) (interact : Bool) : Int :=
  let w1 := cMAX 1 w
  let x1 := if interact then
      (if x > ctx.screenWidth then ctx.screenWidth - widthOf c else x)
    else
      (if x ≥ m.windowX + m.windowWidth then m.windowX + m.windowWidth - widthOf c else x)
  if interact then
    (if x1 + w1 + 2 * c.borderWidth < 0 then 0 else x1)
  else
    (if x1 + w1 + 2 * c.borderWidth ≤ m.windowX then m.windowX else x1)

/-- Value of the y component computed by applysizehints. -/
def nohintsY (ctx : Ctx) (m : Monitor) (c : Client) (y h : Int) (interact : Bool) : Int :=
  let h1 := cMAX 1 h
  let y1 := if interact then
      (if y > ctx.screenHeight then ctx.screenHeight - heightOf c else y)
    else
      (if y ≥ m.windowY + m.windowHeight then m.windowY + m.windowHeight - heightOf c else y)
  if interact then
    (if y1 + h1 + 2 * c.borderWidth < 0 then 0 else y1)
  else
    (if y1 + h1 + 2 * c.borderWidth ≤ m.windowY then m.windowY else y1)

/-- Value of the w component computed by applysizehints for a hint-free
client: only the minimum and bar-height floors act. -/
def nohintsW (ctx : Ctx) (w : Int) : Int :=
  if cMAX 1 w < ctx.barHeight then ctx.barHeight else cMAX 1 w

/-- Value of the h component computed by applysizehints for a hint-free
client. -/
def nohintsH (ctx : Ctx) (h : Int) : Int :=
  if cMAX 1 h < ctx.barHeight then ctx.barHeight else cMAX 1 h

set_option maxHeartbeats 3000000 in
/-- For a client without size hints, applysizehints with an in-range proposal
is the identity on the quadruple (the change flag still compares against the
stored geometry). -/
theorem applysizehints_nohints (ctx : Ctx) (m : Monitor) (c : Client)
    (x y w h : Int) (interact : Bool)
    (hbw : c.basew = 0) (hbh : c.baseh = 0) (hiw : c.incw = 0) (hih : c.inch = 0)
    (hxw : c.maxw = 0) (hxh : c.maxh = 0) (hnw : c.minw = 0) (hnh : c.minh = 0)
    (hma : c.mina = 0)
    (hw1 : 1 ≤ w) (hh1 : 1 ≤ h)
    (hwb : ctx.barHeight ≤ w) (hhb : ctx.barHeight ≤ h)
    (hx1 : x < m.windowX + m.windowWidth)
    (hx2 : m.windowX < x + w + 2 * c.borderWidth)
    (hy1 : y < m.windowY + m.windowHeight)
    (hy2 : m.windowY < y + h + 2 * c.borderWidth)
    (hx3 : x ≤ ctx.screenWidth) (hy3 : y ≤ ctx.screenHeight)
    (hx4 : 0 ≤ x + w + 2 * c.borderWidth) (hy4 : 0 ≤ y + h + 2 * c.borderWidth) :
    applysizehints ctx m c x y w h interact =
      (⟨x, y, w, h⟩, x != c.x || y != c.y || w != c.w || h != c.h) := by
  simp only [applysizehints, cMAX, cMIN, resizeHints, hbw, hbh, hiw, hih, hxw, hxh,
    hnw, hnh, hma, lt_self_iff_false, false_and, if_false, Bool.true_or,
    beq_self_eq_true, Bool.and_self, Bool.not_true, ite_true, ite_false,
    ne_eq, not_true_eq_false, sub_zero, add_zero, Bool.false_eq_true]
  split_ifs <;> first | rfl | (exfalso; omega)

theorem asz_proj_x (ctx : Ctx) (m : Monitor) (c : Client) (x y w h : Int)
    (interact : Bool) :
    (applysizehints ctx m c x y w h interact).1.x = nohintsX ctx m c x w interact := by
  simp only [applysizehints, nohintsX, resizeHints, Bool.true_or, if_true]

theorem asz_proj_y (ctx : Ctx) (m : Monitor) (c : Client) (x y w h : Int)
    (interact : Bool) :
    (applysizehints ctx m c x y w h interact).1.y = nohintsY ctx m c y h interact := by
  simp only [applysizehints, nohintsY, resizeHints, Bool.true_or, if_true]

set_option maxHeartbeats 2000000 in
theorem asz_proj_w (ctx : Ctx) (m : Monitor) (c : Client) (x y w h : Int)
    (interact : Bool)
    (hbw : c.basew = 0) (hiw : c.incw = 0) (hxw : c.maxw = 0) (hnw : c.minw = 0)
    (hma : c.mina = 0) :
    (applysizehints ctx m c x y w h interact).1.w = nohintsW ctx w := by
  simp only [applysizehints, nohintsW, cMAX, cMIN, resizeHints, hbw, hiw, hxw, hnw,
    hma, lt_self_iff_false, false_and, if_false, Bool.true_or, if_true,
    beq_self_eq_true, Bool.and_self, Bool.not_true, ite_true, ite_false,
    ne_eq, not_true_eq_false, sub_zero, add_zero, Bool.false_eq_true]
  split_ifs <;> omega

set_option maxHeartbeats 2000000 in
theorem asz_proj_h (ctx : Ctx) (m : Monitor) (c : Client) (x y w h : Int)
    (interact : Bool)
    (hbh : c.baseh = 0) (hih : c.inch = 0) (hxh : c.maxh = 0) (hnh : c.minh = 0)
    (hma : c.mina = 0) :
    (applysizehints ctx m c x y w h interact).1.h = nohintsH ctx h := by
  simp only [applysizehints, nohintsH, cMAX, cMIN, resizeHints, hbh, hih, hxh, hnh,
    hma, lt_self_iff_false, false_and, if_false, Bool.true_or, if_true,
    beq_self_eq_true, Bool.and_self, Bool.not_true, ite_true, ite_false,
    ne_eq, not_true_eq_false, sub_zero, add_zero, Bool.false_eq_true]
  split_ifs <;> omega

theorem nohintsW_idem (ctx : Ctx) (w : Int) :
    nohintsW ctx (nohintsW ctx w) = nohintsW ctx w := by
  simp only [nohintsW, cMAX]
  split_ifs <;> omega

theorem nohintsH_idem (ctx : Ctx) (h : Int) :
    nohintsH ctx (nohintsH ctx h) = nohintsH ctx h := by
  simp only [nohintsH, cMAX]
  split_ifs <;> omega

set_option maxHeartbeats 8000000 in
theorem nohintsX_idem (ctx : Ctx) (m : Monitor) (c : Client) (x w : Int)
    (interact : Bool)
    (hb : 0 ≤ c.borderWidth) (hsw : 0 ≤ ctx.screenWidth)
    (hww : 0 < m.windowWidth) :
    nohintsX ctx m c (nohintsX ctx m c x w interact) (nohintsW ctx w) interact =
      nohintsX ctx m c x w interact := by
  cases interact <;>
    simp only [nohintsX, nohintsW, cMAX, widthOf, if_true, if_false,
      Bool.false_eq_true] <;>
    split_ifs <;> omega

set_option maxHeartbeats 8000000 in
theorem nohintsY_idem (ctx : Ctx) (m : Monitor) (c : Client) (y h : Int)
    (interact : Bool)
    (hb : 0 ≤ c.borderWidth) (hsh : 0 ≤ ctx.screenHeight)
    (hwh : 0 < m.windowHeight) :
    nohintsY ctx m c (nohintsY ctx m c y h interact) (nohintsH ctx h) interact =
      nohintsY ctx m c y h interact := by
  cases interact <;>
    simp only [nohintsY, nohintsH, cMAX, heightOf, if_true, if_false,
      Bool.false_eq_true] <;>
    split_ifs <;> omega

end Dwm

namespace Dwm

/-- A client record with zero geometry, zero size hints, border width 1
(config value borderpx), tag 1, all flags clear; concrete test states below
adjust individual fields. -/
def baseClient (cid : Nat) : Client :=
  { id := cid, x := 0, y := 0, w := 0, h := 0,
    oldx := 0, oldy := 0, oldw := 0, oldh := 0,
    basew := 0, baseh := 0, incw := 0, inch := 0,
    maxw := 0, maxh := 0, minw := 0, minh := 0,
    mina := 0, maxa := 0, borderWidth := 1, oldBorderWidth := 0, tags := 1,
    isFixed := false, isFloating := false, isUrgent := false, neverFocus := false,
    oldState := false, isFullscreen := false, xBorder := 1 }

/-- A monitor whose window area coincides with its screen area (the bar is
hidden, as in the shipped configuration), master factor 0.5 and one master. -/
def baseMonitor (layout : LayoutKind) (wx wy ww wh : Int) : Monitor :=
  { layoutSymbol := layoutSymbolOf layout, masterFactor := mkRat 1 2, nMaster := 1,
    monitorX := wx, monitorY := wy, monitorWidth := ww, monitorHeight := wh,
    windowX := wx, windowY := wy, windowWidth := ww, windowHeight := wh,
    selectedTags := 0, tagSet0 := 1, tagSet1 := 1, layout := layout,
    clients := [], stack := [], selectedClient := none }

/-- Concrete context used by several witnesses. -/
def ctx0 : Ctx := { screenWidth := 1000, screenHeight := 1000, barHeight := 20 }

/-- Fixture for the C3 counterexample: a client with a maximum-width hint of
10 pixels inside a 100 x 100 window area. -/
def c3Client : Client := { baseClient 1 with w := 50, h := 50, maxw := 10 }

/-- Monitor of the C3 counterexample. -/
def c3Monitor : Monitor := baseMonitor .tileL 0 0 100 100

/-- Context of the C3 counterexample. -/
def c3Ctx : Ctx := { screenWidth := 1000, screenHeight := 1000, barHeight := 10 }

/-- C3, counterexample.  applysizehints is not idempotent as stated: for the
client with maximum width 10 and the proposed rectangle (-500, 0, 1000, 50) in
non-interactive mode, the first application keeps x = -500 (the left-edge clamp
compares against the proposed 1000-pixel width), shrinks w to the 10-pixel
maximum, and the second application then clamps x to the window-area edge 0. -/
theorem C3_counterexample :
    (applysizehints c3Ctx c3Monitor c3Client (-500) 0 1000 50 false).1
        = ⟨-500, 0, 10, 50⟩ ∧
    (applysizehints c3Ctx c3Monitor c3Client (-500) 0 10 50 false).1
        = ⟨0, 0, 10, 50⟩ ∧
    ¬ ((applysizehints c3Ctx c3Monitor c3Client
          ((applysizehints c3Ctx c3Monitor c3Client (-500) 0 1000 50 false).1.x)
          ((applysizehints c3Ctx c3Monitor c3Client (-500) 0 1000 50 false).1.y)
          ((applysizehints c3Ctx c3Monitor c3Client (-500) 0 1000 50 false).1.w)
          ((applysizehints c3Ctx c3Monitor c3Client (-500) 0 1000 50 false).1.h)
          false).1
        = (applysizehints c3Ctx c3Monitor c3Client (-500) 0 1000 50 false).1) := by
  refine ⟨by decide, by decide, by decide⟩

/-- C3 (amended): applysizehints is idempotent for clients without size hints
(all hint fields zero, the defaults substituted when a client provides none),
whenever the border width is nonnegative, the screen dimensions are
nonnegative and the monitor window area has positive width and height:
applying the adjustment a second time to the output of the first application
yields the same (x, y, w, h).  For hinted clients the property fails, see the
counterexample. -/
theorem C3_applysizehints_idempotent (ctx : Ctx) (m : Monitor) (c : Client)
    (x y w h : Int) (interact : Bool)
    (hbw : c.basew = 0) (hbh : c.baseh = 0) (hiw : c.incw = 0) (hih : c.inch = 0)
    (hxw : c.maxw = 0) (hxh : c.maxh = 0) (hnw : c.minw = 0) (hnh : c.minh = 0)
    (hma : c.mina = 0)
    (hb : 0 ≤ c.borderWidth) (hsw : 0 ≤ ctx.screenWidth) (hsh : 0 ≤ ctx.screenHeight)
    (hww : 0 < m.windowWidth) (hwh : 0 < m.windowHeight) :
    (applysizehints ctx m c
        ((applysizehints ctx m c x y w h interact).1.x)
        ((applysizehints ctx m c x y w h interact).1.y)
        ((applysizehints ctx m c x y w h interact).1.w)
        ((applysizehints ctx m c x y w h interact).1.h) interact).1
      = (applysizehints ctx m c x y w h interact).1 := by
  have e1 : (applysizehints ctx m c
      ((applysizehints ctx m c x y w h interact).1.x)
      ((applysizehints ctx m c x y w h interact).1.y)
      ((applysizehints ctx m c x y w h interact).1.w)
      ((applysizehints ctx m c x y w h interact).1.h) interact).1.x
      = (applysizehints ctx m c x y w h interact).1.x := by
    rw [asz_proj_x, asz_proj_x, asz_proj_w ctx m c x y w h interact hbw hiw hxw hnw hma,
      nohintsX_idem ctx m c x w interact hb hsw hww]
  have e2 : (applysizehints ctx m c
      ((applysizehints ctx m c x y w h interact).1.x)
      ((applysizehints ctx m c x y w h interact).1.y)
      ((applysizehints ctx m c x y w h interact).1.w)
      ((applysizehints ctx m c x y w h interact).1.h) interact).1.y
      = (applysizehints ctx m c x y w h interact).1.y := by
    rw [asz_proj_y, asz_proj_y, asz_proj_h ctx m c x y w h interact hbh hih hxh hnh hma,
      nohintsY_idem ctx m c y h interact hb hsh hwh]
  have e3 : (applysizehints ctx m c
      ((applysizehints ctx m c x y w h interact).1.x)
      ((applysizehints ctx m c x y w h interact).1.y)
      ((applysizehints ctx m c x y w h interact).1.w)
      ((applysizehints ctx m c x y w h interact).1.h) interact).1.w
      = (applysizehints ctx m c x y w h interact).1.w := by
    rw [asz_proj_w ctx m c _ _ _ _ interact hbw hiw hxw hnw hma,
      asz_proj_w ctx m c x y w h interact hbw hiw hxw hnw hma, nohintsW_idem]
  have e4 : (applysizehints ctx m c
      ((applysizehints ctx m c x y w h interact).1.x)
      ((applysizehints ctx m c x y w h interact).1.y)
      ((applysizehints ctx m c x y w h interact).1.w)
      ((applysizehints ctx m c x y w h interact).1.h) interact).1.h
      = (applysizehints ctx m c x y w h interact).1.h := by
    rw [asz_proj_h ctx m c _ _ _ _ interact hbh hih hxh hnh hma,
      asz_proj_h ctx m c x y w h interact hbh hih hxh hnh hma, nohintsH_idem]
  calc (applysizehints ctx m c
        ((applysizehints ctx m c x y w h interact).1.x)
        ((applysizehints ctx m c x y w h interact).1.y)
        ((applysizehints ctx m c x y w h interact).1.w)
        ((applysizehints ctx m c x y w h interact).1.h) interact).1
      = ⟨(applysizehints ctx m c
            ((applysizehints ctx m c x y w h interact).1.x)
            ((applysizehints ctx m c x y w h interact).1.y)
            ((applysizehints ctx m c x y w h interact).1.w)
            ((applysizehints ctx m c x y w h interact).1.h) interact).1.x,
          (applysizehints ctx m c
            ((applysizehints ctx m c x y w h interact).1.x)
            ((applysizehints ctx m c x y w h interact).1.y)
            ((applysizehints ctx m c x y w h interact).1.w)
            ((applysizehints ctx m c x y w h interact).1.h) interact).1.y,
          (applysizehints ctx m c
            ((applysizehints ctx m c x y w h interact).1.x)
            ((applysizehints ctx m c x y w h interact).1.y)
            ((applysizehints ctx m c x y w h interact).1.w)
            ((applysizehints ctx m c x y w h interact).1.h) interact).1.w,
          (applysizehints ctx m c
            ((applysizehints ctx m c x y w h interact).1.x)
            ((applysizehints ctx m c x y w h interact).1.y)
            ((applysizehints ctx m c x y w h interact).1.w)
            ((applysizehints ctx m c x y w h interact).1.h) interact).1.h⟩ := rfl
    _ = ⟨(applysizehints ctx m c x y w h interact).1.x,
         (applysizehints ctx m c x y w h interact).1.y,
         (applysizehints ctx m c x y w h interact).1.w,
         (applysizehints ctx m c x y w h interact).1.h⟩ := by rw [e1, e2, e3, e4]
    _ = (applysizehints ctx m c x y w h interact).1 := rfl

/-- C3, witness for the amended idempotence theorem at a concrete hint-free
client and proposal. -/
theorem C3_witness :
    (applysizehints ctx0 (baseMonitor .tileL 0 0 1000 800) (baseClient 1)
        ((applysizehints ctx0 (baseMonitor .tileL 0 0 1000 800) (baseClient 1)
            5 7 50 60 false).1.x)
        ((applysizehints ctx0 (baseMonitor .tileL 0 0 1000 800) (baseClient 1)
            5 7 50 60 false).1.y)
        ((applysizehints ctx0 (baseMonitor .tileL 0 0 1000 800) (baseClient 1)
            5 7 50 60 false).1.w)
        ((applysizehints ctx0 (baseMonitor .tileL 0 0 1000 800) (baseClient 1)
            5 7 50 60 false).1.h) false).1
      = (applysizehints ctx0 (baseMonitor .tileL 0 0 1000 800) (baseClient 1)
          5 7 50 60 false).1 :=
  C3_applysizehints_idempotent ctx0 (baseMonitor .tileL 0 0 1000 800) (baseClient 1)
    5 7 50 60 false rfl rfl rfl rfl rfl rfl rfl rfl rfl
    (by decide) (by decide) (by decide) (by decide) (by decide)

end Dwm

namespace Dwm

/-! The layout engine: tile, monocle and dwindle from dwm.c, as monitor
transformers.  The C loops iterate with `c = nexttiled(...)`; here the loop
walks the id list of the client list in order and skips non-tiled entries,
which visits exactly the same clients in the same order (resize changes only
geometry fields, never the floating/tag/fullscreen status the walk tests). -/

/-- Count of the nexttiled walk over the whole client list. -/
def tiledCount (m : Monitor) : Nat :=
  (m.clients.filter (fun c => !c.isFloating && isVisible m c)).length

/-- Count of visible clients (the first loop of monocle counts these,
floating included). -/
def visibleCount (m : Monitor) : Nat :=
  (m.clients.filter (fun c => isVisible m c)).length

/-- Loop body of the tile function of dwm.c (lines 1744..1770): `i` is the
tiled index, `my`/`ty` the filled heights of the master and stack columns
(unsigned in C).  The C expression (m->windowHeight - my) is computed in
unsigned arithmetic; under the loop guard my stays below windowHeight, which
`(m.windowHeight - my).toNat` reproduces. -/
def tileLoop (ctx : Ctx) (n : Nat) (mw : Int) :
    List Nat → Monitor → Nat → Nat → Nat → Monitor
  | [], m, _, _, _ => m
  | cid :: rest, m, i, my, ty =>
    match findClient m cid with
    | none => tileLoop ctx n mw rest m i my ty
    | some c =>
      if !c.isFloating && isVisible m c then
        if i < m.nMaster then
          let hslot : Nat := (m.windowHeight - (my : Int)).toNat / (min n m.nMaster - i)
          let m1 := resize ctx m c m.windowX (m.windowY + (my : Int))
              (mw - 2 * c.borderWidth) ((hslot : Int) - 2 * c.borderWidth) false
          let c1 := (findClient m1 cid).getD c
          let my1 := if (my : Int) + heightOf c1 < m.windowHeight
              then my + (heightOf c1).toNat else my
          tileLoop ctx n mw rest m1 (i + 1) my1 ty
        else
          let hslot : Nat := (m.windowHeight - (ty : Int)).toNat / (n - i)
          let m1 := resize ctx m c (m.windowX + mw) (m.windowY + (ty : Int))
              (m.windowWidth - mw - 2 * c.borderWidth) ((hslot : Int) - 2 * c.borderWidth) false
          let c1 := (findClient m1 cid).getD c
          let ty1 := if (ty : Int) + heightOf c1 < m.windowHeight
              then ty + (heightOf c1).toNat else ty
          tileLoop ctx n mw rest m1 (i + 1) my ty1
      else tileLoop ctx n mw rest m i my ty

/-- The tile function of dwm.c. -/
def tile (ctx : Ctx) (m : Monitor) : Monitor :=
  let n := tiledCount m
  if n = 0 then m
  else
    let mw : Int :=
      if n > m.nMaster then
        (if m.nMaster ≠ 0 then mulTrunc m.windowWidth m.masterFactor else 0)
      else m.windowWidth
    tileLoop ctx n mw (m.clients.map Client.id) m 0 0 0

/-- Resize loop of the monocle function. -/
def monocleLoop (ctx : Ctx) : List Nat → Monitor → Monitor
  | [], m => m
  | cid :: rest, m =>
    match findClient m cid with
    | none => monocleLoop ctx rest m
    | some c =>
      if !c.isFloating && isVisible m c then
        monocleLoop ctx rest (resize ctx m c m.windowX m.windowY
          (m.windowWidth - 2 * c.borderWidth) (m.windowHeight - 2 * c.borderWidth) false)
      else monocleLoop ctx rest m

/-- The monocle function of dwm.c (lines 1149..1162): count the visible
clients, overwrite the layout symbol when the count is positive, then resize
every tiled client to the window area minus its own borders. -/
def monocle (ctx : Ctx) (m : Monitor) : Monitor :=
  let n := visibleCount m
  let m1 := if n > 0 then { m with layoutSymbol := "[" ++ toString n ++ "]" } else m
  monocleLoop ctx (m1.clients.map Client.id) m1

/-- Loop state of the dwindle function: the tiled index and the current
rectangle, all unsigned in C. -/
structure DwState where
  i : Nat
  nx : Nat
  ny : Nat
  nw : Nat
  nh : Nat
  deriving DecidableEq

/-- One step of the dwindle loop of dwm.c (lines 1772..1817) for a tiled
client: the split guard, the conditional halving, the 4-phase origin advance
and the index-0 / index-1 overrides. -/
def dwindleStep (m : Monitor) (n : Nat) (c : Client) (s : DwState) : DwState :=
  if (s.i % 2 = 1 ∧ ((s.nh / 2 : Nat) : Int) > 2 * c.borderWidth)
      ∨ (s.i % 2 = 0 ∧ ((s.nw / 2 : Nat) : Int) > 2 * c.borderWidth) then
    let s1 := if s.i < n - 1 then
        (if s.i % 2 = 1 then { s with nh := s.nh / 2 } else { s with nw := s.nw / 2 })
      else s
    let s2 :=
      if s1.i % 4 = 0 then { s1 with ny := s1.ny + s1.nh }
      else if s1.i % 4 = 1 then { s1 with nx := s1.nx + s1.nw }
      else if s1.i % 4 = 2 then { s1 with ny := s1.ny + s1.nh }
      else { s1 with nx := s1.nx + s1.nw }
    let s3 :=
      if s2.i = 0 then
        { s2 with nw := if n ≠ 1 then (mulTrunc m.windowWidth m.masterFactor).toNat
                        else s2.nw,
                  ny := m.windowY.toNat }
      else if s2.i = 1 then { s2 with nw := m.windowWidth.toNat - s2.nw }
      else s2
    { s3 with i := s3.i + 1 }
  else s

/-- The dwindle loop: step the state for each tiled client and resize it to
the current rectangle minus its borders; the second component records the
rectangle passed to resize for each tiled client, in order. -/
def dwindleLoop (ctx : Ctx) (n : Nat) :
    List Nat → Monitor → DwState → Monitor × List Geom
  | [], m, _ => (m, [])
  | cid :: rest, m, s =>
    match findClient m cid with
    | none => dwindleLoop ctx n rest m s
    | some c =>
      if !c.isFloating && isVisible m c then
        let s1 := dwindleStep m n c s
        let g : Geom := ⟨(s1.nx : Int), (s1.ny : Int),
                         (s1.nw : Int) - 2 * c.borderWidth,
                         (s1.nh : Int) - 2 * c.borderWidth⟩
        let m1 := resize ctx m c g.x g.y g.w g.h false
        let r := dwindleLoop ctx n rest m1 s1
        (r.1, g :: r.2)
      else dwindleLoop ctx n rest m s

/-- Initial dwindle state: index 0, x at the window-area left edge, y 0 (the
code seeds ny to windowY only inside the index-0 branch), full window size. -/
def dwindleInit (m : Monitor) : DwState :=
  ⟨0, m.windowX.toNat, 0, m.windowWidth.toNat, m.windowHeight.toNat⟩

/-- The dwindle function of dwm.c. -/
def dwindle (ctx : Ctx) (m : Monitor) : Monitor :=
  let n := tiledCount m
  if n = 0 then m
  else (dwindleLoop ctx n (m.clients.map Client.id) m (dwindleInit m)).1

/-- The rectangles dwindle passes to resize, one per tiled client in order. -/
def dwindleRects (ctx : Ctx) (m : Monitor) : List Geom :=
  let n := tiledCount m
  if n = 0 then []
  else (dwindleLoop ctx n (m.clients.map Client.id) m (dwindleInit m)).2

/-- The showhide recursion of dwm.c over the focus stack: a visible client
that floats (or lives under the NULL layout) and is not fullscreen is resized
to its own geometry; hidden clients are only moved offscreen on the X side,
their stored fields do not change. -/
def showhide (ctx : Ctx) : List Nat → Monitor → Monitor
  | [], m => m
  | cid :: rest, m =>
    match findClient m cid with
    | none => showhide ctx rest m
    | some c =>
      if isVisible m c then
        let m1 := if (!(hasArrange m.layout) || c.isFloating) && !c.isFullscreen then
            resize ctx m c c.x c.y c.w c.h false
          else m
        showhide ctx rest m1
      else showhide ctx rest m

/-- The arrangemon function of dwm.c: reassert the layout symbol, then run
the active arrange function. -/
def arrangemon (ctx : Ctx) (m : Monitor) : Monitor :=
  let m1 := { m with layoutSymbol := layoutSymbolOf m.layout }
  match m1.layout with
  | .dwindleL => dwindle ctx m1
  | .tileL => tile ctx m1
  | .floatL => m1
  | .monocleL => monocle ctx m1

/-- The arrange function of dwm.c for a non-NULL monitor: showhide over the
stack, then arrangemon (restack only reorders windows on the X side and
repaints the bar, it changes none of the modelled state). -/
def arrange (ctx : Ctx) (m : Monitor) : Monitor :=
  arrangemon ctx (showhide ctx m.stack m)

end Dwm

namespace Dwm

/-! The focus-stack machinery and the user operations touched by the
claims.  focus, toggletag, toggleview, view, togglefloating and the mouse-move
motion step act on the selected monitor; the model keeps a single monitor, all
scenario claims live on one monitor. -/

/-- The attachStack function of dwm.c: push on the focus stack. -/
def attachStack (m : Monitor) (cid : Nat) : Monitor :=
  { m with stack := cid :: m.stack }

/-- The scan inside detachStack and focus: first visible client in stack
order. -/
def firstVisibleInStack (m : Monitor) : List Nat → Option Client
  | [] => none
  | cid :: rest =>
    match findClient m cid with
    | none => firstVisibleInStack m rest
    | some c => if isVisible m c then some c else firstVisibleInStack m rest

/-- The detachStack function of dwm.c (lines 684..694): unlink the first
occurrence from the stack; if the detached client was the selected one,
reassign the selection to the first visible client left in stack order. -/
def detachStack (m : Monitor) (cid : Nat) : Monitor :=
  let m1 := { m with stack := m.stack.erase cid }
  if m.selectedClient = some cid then
    { m1 with selectedClient := (firstVisibleInStack m1 m1.stack).map Client.id }
  else m1

/-- The target a focus(client) call actually focuses: the argument when it is
a visible client, otherwise the first visible client in the stack of the
selected monitor. -/
def focusResolve (m : Monitor) (target : Option Nat) : Option Client :=
  match target.bind (findClient m) with
  | some c => if isVisible m c then some c else firstVisibleInStack m m.stack
  | none => firstVisibleInStack m m.stack

/-- The focus function of dwm.c (lines 819..847) on the selected monitor:
resolve the target, clear its urgency flag, move it to the stack head and make
it the selection; with no resolvable target the selection becomes empty.  The
unfocus call, button grabs, border repaints and the X focus transfer change no
modelled state. -/
def focus (m : Monitor) (target : Option Nat) : Monitor :=
  match focusResolve m target with
  | some c =>
    let m1 := detachStack m c.id
    let m2 := attachStack m1 c.id
    let m3 := updateClient m2 { c with isUrgent := false }
    { m3 with selectedClient := some c.id }
  | none => { m with selectedClient := none }

/-- The toggletag function of dwm.c (lines 1840..1853). -/
def toggletag (ctx : Ctx) (m : Monitor) (argui : Nat) : Monitor :=
  match m.selectedClient.bind (findClient m) with
  | none => m
  | some c =>
    let newtags := c.tags ^^^ (argui &&& TAGMASK)
    if newtags ≠ 0 then
      arrange ctx (focus (updateClient m { c with tags := newtags }) none)
    else m

/-- Write tagSet[selectedTags]. -/
def setMonTagset (m : Monitor) (t : Nat) : Monitor :=
  if m.selectedTags = 0 then { m with tagSet0 := t } else { m with tagSet1 := t }

/-- The toggleview function of dwm.c (lines 1855..1865). -/
def toggleview (ctx : Ctx) (m : Monitor) (argui : Nat) : Monitor :=
  let newtagset := monTagset m ^^^ (argui &&& TAGMASK)
  if newtagset ≠ 0 then
    arrange ctx (focus (setMonTagset m newtagset) none)
  else m

/-- The view function of dwm.c (lines 2152..2162): a no-op when the masked
argument equals the current tag set, otherwise flip the tag-set slot and, for
a nonzero masked argument, write it into the now-active slot. -/
def view (ctx : Ctx) (m : Monitor) (argui : Nat) : Monitor :=
  if argui &&& TAGMASK = monTagset m then m
  else
    let m1 := { m with selectedTags := m.selectedTags ^^^ 1 }
    let m2 := if argui &&& TAGMASK ≠ 0 then setMonTagset m1 (argui &&& TAGMASK) else m1
    arrange ctx (focus m2 none)

/-- The createMonitor function of dwm.c (lines 652..663): a zeroed Monitor
with both tag-set slots 1, the config master factor/count, the first catalog
layout and its symbol.  The config values are taken as parameters. -/
def createMonitor (mf : ℚ) (nm : Nat) : Monitor :=
  { layoutSymbol := layoutSymbolOf .dwindleL, masterFactor := mf, nMaster := nm,
    monitorX := 0, monitorY := 0, monitorWidth := 0, monitorHeight := 0,
    windowX := 0, windowY := 0, windowWidth := 0, windowHeight := 0,
    selectedTags := 0, tagSet0 := 1, tagSet1 := 1, layout := .dwindleL,
    clients := [], stack := [], selectedClient := none }

/-- The setfullscreen function of dwm.c (lines 1530..1556), both branches. -/
def setfullscreen (ctx : Ctx) (m : Monitor) (cid : Nat) (fullscreen : Bool) : Monitor :=
  match findClient m cid with
  | none => m
  | some c =>
    if fullscreen && !c.isFullscreen then
      let c1 := { c with isFullscreen := true, oldState := c.isFloating,
                         oldBorderWidth := c.borderWidth, borderWidth := 0,
                         isFloating := true }
      resizeclient (updateClient m c1) c1
        m.monitorX m.monitorY m.monitorWidth m.monitorHeight
    else if !fullscreen && c.isFullscreen then
      let c1 := { c with isFullscreen := false, isFloating := c.oldState,
                         borderWidth := c.oldBorderWidth,
                         x := c.oldx, y := c.oldy, w := c.oldw, h := c.oldh }
      arrange ctx (resizeclient (updateClient m c1) c1 c1.x c1.y c1.w c1.h)
    else m

/-- The togglefloating function of dwm.c (lines 1827..1839). -/
def togglefloating (ctx : Ctx) (m : Monitor) : Monitor :=
  match m.selectedClient.bind (findClient m) with
  | none => m
  | some c =>
    if c.isFullscreen then m
    else
      let c1 := { c with isFloating := !c.isFloating || c.isFixed }
      let m1 := updateClient m c1
      let m2 := if c1.isFloating then resize ctx m1 c1 c1.x c1.y c1.w c1.h false else m1
      arrange ctx m2

/-- One MotionNotify step of the movemouse loop of dwm.c (lines 1179..1237)
for a pointer that has moved by (dx, dy) since the grab started at the
position of the selected client: candidate position, edge snapping, the
auto-float conversion, and the conditional interactive resize.  The grab
preconditions of movemouse (a selected, non-fullscreen client) guard the
step. -/
def movemouseMotion (ctx : Ctx) (m : Monitor) (dx dy : Int) : Monitor :=
  match m.selectedClient.bind (findClient m) with
  | none => m
  | some c =>
    if c.isFullscreen then m
    else
      let nx0 := c.x + dx
      let ny0 := c.y + dy
      let nx := if |m.windowX - nx0| < snap then m.windowX
        else if |(m.windowX + m.windowWidth) - (nx0 + widthOf c)| < snap then
          m.windowX + m.windowWidth - widthOf c
        else nx0
      let ny := if |m.windowY - ny0| < snap then m.windowY
        else if |(m.windowY + m.windowHeight) - (ny0 + heightOf c)| < snap then
          m.windowY + m.windowHeight - heightOf c
        else ny0
      let m1 := if c.isFloating = false ∧ hasArrange m.layout = true
          ∧ (snap < |nx - c.x| ∨ snap < |ny - c.y|) then
          togglefloating ctx m
        else m
      let c1 := (findClient m1 c.id).getD c
      if !(hasArrange m1.layout) || c1.isFloating then
        resize ctx m1 c1 nx ny c1.w c1.h true
      else m1

end Dwm

namespace Dwm

/-! Frame lemmas: the geometry operations touch only client geometry fields
(and the layout symbol); the monitor configuration and the static client
fields survive them.  These are the workhorses for the invariant claims. -/

/-- The monitor fields never written by the layout engine or the focus
machinery. -/
def monCfg (m : Monitor) :=
  (m.masterFactor, m.nMaster, m.monitorX, m.monitorY, m.monitorWidth,
   m.monitorHeight, m.windowX, m.windowY, m.windowWidth, m.windowHeight,
   m.selectedTags, m.tagSet0, m.tagSet1, m.layout)

theorem monCfg_updateClient (m : Monitor) (c : Client) :
    monCfg (updateClient m c) = monCfg m := rfl

theorem monCfg_resizeclient (m : Monitor) (c : Client) (x y w h : Int) :
    monCfg (resizeclient m c x y w h) = monCfg m := by
  simp only [resizeclient]
  split <;> rfl

theorem monCfg_resize (ctx : Ctx) (m : Monitor) (c : Client) (x y w h : Int)
    (interact : Bool) : monCfg (resize ctx m c x y w h interact) = monCfg m := by
  simp only [resize]
  split
  · exact monCfg_resizeclient ..
  · rfl

theorem monCfg_tileLoop (ctx : Ctx) (n : Nat) (mw : Int) (ids : List Nat)
    (m : Monitor) (i my ty : Nat) :
    monCfg (tileLoop ctx n mw ids m i my ty) = monCfg m := by
  induction ids generalizing m i my ty with
  | nil => rfl
  | cons cid rest ih =>
    simp only [tileLoop]
    split
    · exact ih ..
    · split
      · split
        · rw [ih]; exact monCfg_resize ..
        · rw [ih]; exact monCfg_resize ..
      · exact ih ..

theorem monCfg_tile (ctx : Ctx) (m : Monitor) : monCfg (tile ctx m) = monCfg m := by
  simp only [tile]
  split
  · rfl
  · exact monCfg_tileLoop ..

theorem monCfg_monocleLoop (ctx : Ctx) (ids : List Nat) (m : Monitor) :
    monCfg (monocleLoop ctx ids m) = monCfg m := by
  induction ids generalizing m with
  | nil => rfl
  | cons cid rest ih =>
    simp only [monocleLoop]
    split
    · exact ih ..
    · split
      · rw [ih]; exact monCfg_resize ..
      · exact ih ..

theorem monCfg_monocle (ctx : Ctx) (m : Monitor) :
    monCfg (monocle ctx m) = monCfg m := by
  simp only [monocle]
  split <;> exact monCfg_monocleLoop ..

theorem monCfg_dwindleLoop (ctx : Ctx) (n : Nat) (ids : List Nat) (m : Monitor)
    (s : DwState) : monCfg (dwindleLoop ctx n ids m s).1 = monCfg m := by
  induction ids generalizing m s with
  | nil => rfl
  | cons cid rest ih =>
    simp only [dwindleLoop]
    split
    · exact ih ..
    · split
      · rw [ih]; exact monCfg_resize ..
      · exact ih ..

theorem monCfg_dwindle (ctx : Ctx) (m : Monitor) :
    monCfg (dwindle ctx m) = monCfg m := by
  simp only [dwindle]
  split
  · rfl
  · exact monCfg_dwindleLoop ..

theorem monCfg_showhide (ctx : Ctx) (ids : List Nat) (m : Monitor) :
    monCfg (showhide ctx ids m) = monCfg m := by
  induction ids generalizing m with
  | nil => rfl
  | cons cid rest ih =>
    simp only [showhide]
    split
    · exact ih ..
    · split
      · rw [ih]
        split
        · exact monCfg_resize ..
        · rfl
      · exact ih ..

theorem monCfg_arrangemon (ctx : Ctx) (m : Monitor) :
    monCfg (arrangemon ctx m) = monCfg m := by
  simp only [arrangemon]
  split
  · exact monCfg_dwindle ..
  · exact monCfg_tile ..
  · rfl
  · exact monCfg_monocle ..

theorem monCfg_arrange (ctx : Ctx) (m : Monitor) :
    monCfg (arrange ctx m) = monCfg m := by
  simp only [arrange]
  rw [monCfg_arrangemon]
  have h := monCfg_showhide ctx m.stack m
  calc monCfg (showhide ctx m.stack m) = monCfg m := h

theorem monCfg_detachStack (m : Monitor) (cid : Nat) :
    monCfg (detachStack m cid) = monCfg m := by
  simp only [detachStack]
  split <;> rfl

theorem monCfg_setSelected (m : Monitor) (v : Option Nat) :
    monCfg { m with selectedClient := v } = monCfg m := rfl

theorem monCfg_attachStack (m : Monitor) (cid : Nat) :
    monCfg (attachStack m cid) = monCfg m := rfl

theorem monCfg_focus (m : Monitor) (target : Option Nat) :
    monCfg (focus m target) = monCfg m := by
  simp only [focus]
  split
  · rw [monCfg_setSelected, monCfg_updateClient, monCfg_attachStack,
      monCfg_detachStack]
  · rfl

end Dwm

namespace Dwm

/-! Client lookup is untouched by writes to other ids, and the layout engine
never writes a floating client. -/

theorem find?_map_update (l : List Client) (c' : Client) (cid : Nat)
    (h : c'.id ≠ cid) :
    (l.map (fun d => if d.id = c'.id then c' else d)).find? (fun c => c.id = cid)
      = l.find? (fun c => c.id = cid) := by
  induction l with
  | nil => rfl
  | cons d rest ih =>
    by_cases hd : d.id = c'.id
    · have h2 : ¬ (d.id = cid) := by rw [hd]; exact h
      simp only [List.map_cons, List.find?_cons, if_pos hd]
      rw [show (decide (c'.id = cid)) = false by simp [h],
          show (decide (d.id = cid)) = false by simp [h2]]
      exact ih
    · simp only [List.map_cons, List.find?_cons, if_neg hd]
      cases hdc : decide (d.id = cid) <;> simp only [ih]

theorem findClient_updateClient_ne (m : Monitor) (c' : Client) (cid : Nat)
    (h : c'.id ≠ cid) :
    findClient (updateClient m c') cid = findClient m cid := by
  simp only [findClient, updateClient]
  exact find?_map_update m.clients c' cid h

theorem findClient_resizeclient_ne (m : Monitor) (c' : Client) (x y w h : Int)
    (cid : Nat) (hne : c'.id ≠ cid) :
    findClient (resizeclient m c' x y w h) cid = findClient m cid := by
  simp only [resizeclient]
  split <;> exact findClient_updateClient_ne _ _ _ hne

theorem findClient_resize_ne (ctx : Ctx) (m : Monitor) (c' : Client)
    (x y w h : Int) (interact : Bool) (cid : Nat) (hne : c'.id ≠ cid) :
    findClient (resize ctx m c' x y w h interact) cid = findClient m cid := by
  simp only [resize]
  split
  · exact findClient_resizeclient_ne _ _ _ _ _ _ _ hne
  · rfl

theorem findClient_id (m : Monitor) (cid : Nat) (c : Client)
    (h : findClient m cid = some c) : c.id = cid := by
  have := List.find?_some h
  simpa using this

theorem findClient_mem (m : Monitor) (cid : Nat) (c : Client)
    (h : findClient m cid = some c) : c ∈ m.clients :=
  List.mem_of_find?_eq_some h

/-- tileLoop never writes a floating client. -/
theorem tileLoop_findClient_floating (ctx : Ctx) (n : Nat) (mw : Int)
    (ids : List Nat) (m : Monitor) (i my ty : Nat) (cid : Nat) (c : Client)
    (hf : findClient m cid = some c) (hfl : c.isFloating = true) :
    findClient (tileLoop ctx n mw ids m i my ty) cid = some c := by
  induction ids generalizing m i my ty with
  | nil => exact hf
  | cons cid2 rest ih =>
    simp only [tileLoop]
    split
    · exact ih m i my ty hf
    · rename_i c2 hc2
      split
      · rename_i htiled
        have hne : c2.id ≠ cid := by
          intro he
          have : findClient m cid = some c2 := by
            rw [← he, ← hc2]
            congr 1
            exact (findClient_id m cid2 c2 hc2).symm ▸ rfl
          rw [hf] at this
          cases this
          simp [hfl] at htiled
        split
        · exact ih _ _ _ _ (by rw [findClient_resize_ne _ _ _ _ _ _ _ _ _ hne]; exact hf)
        · exact ih _ _ _ _ (by rw [findClient_resize_ne _ _ _ _ _ _ _ _ _ hne]; exact hf)
      · exact ih m i my ty hf

end Dwm

namespace Dwm

/-- monocleLoop never writes a floating client. -/
theorem monocleLoop_findClient_floating (ctx : Ctx) (ids : List Nat)
    (m : Monitor) (cid : Nat) (c : Client)
    (hf : findClient m cid = some c) (hfl : c.isFloating = true) :
    findClient (monocleLoop ctx ids m) cid = some c := by
  induction ids generalizing m with
  | nil => exact hf
  | cons cid2 rest ih =>
    simp only [monocleLoop]
    split
    · exact ih m hf
    · rename_i c2 hc2
      split
      · rename_i htiled
        have hne : c2.id ≠ cid := by
          intro he
          have h3 : findClient m cid = some c2 := by
            rw [← he, findClient_id m cid2 c2 hc2]
            exact hc2
          rw [hf] at h3
          cases h3
          simp [hfl] at htiled
        exact ih _ (by rw [findClient_resize_ne _ _ _ _ _ _ _ _ _ hne]; exact hf)
      · exact ih m hf

/-- dwindleLoop never writes a floating client. -/
theorem dwindleLoop_findClient_floating (ctx : Ctx) (n : Nat) (ids : List Nat)
    (m : Monitor) (s : DwState) (cid : Nat) (c : Client)
    (hf : findClient m cid = some c) (hfl : c.isFloating = true) :
    findClient (dwindleLoop ctx n ids m s).1 cid = some c := by
  induction ids generalizing m s with
  | nil => exact hf
  | cons cid2 rest ih =>
    simp only [dwindleLoop]
    split
    · exact ih m s hf
    · rename_i c2 hc2
      split
      · rename_i htiled
        have hne : c2.id ≠ cid := by
          intro he
          have h3 : findClient m cid = some c2 := by
            rw [← he, findClient_id m cid2 c2 hc2]
            exact hc2
          rw [hf] at h3
          cases h3
          simp [hfl] at htiled
        exact ih _ _ (by rw [findClient_resize_ne _ _ _ _ _ _ _ _ _ hne]; exact hf)
      · exact ih m s hf

/-- The change flag returned by applysizehints compares the computed
quadruple against the stored client geometry. -/
theorem asz_snd (ctx : Ctx) (m : Monitor) (c : Client) (x y w h : Int)
    (interact : Bool) :
    (applysizehints ctx m c x y w h interact).2 =
      ((applysizehints ctx m c x y w h interact).1.x != c.x
        || (applysizehints ctx m c x y w h interact).1.y != c.y
        || (applysizehints ctx m c x y w h interact).1.w != c.w
        || (applysizehints ctx m c x y w h interact).1.h != c.h) := by
  simp only [applysizehints, resizeHints, Bool.true_or, if_true]

/-- A resize whose hint adjustment returns the stored geometry is a no-op. -/
theorem resize_noop (ctx : Ctx) (m : Monitor) (c : Client) (interact : Bool)
    (hfix : (applysizehints ctx m c c.x c.y c.w c.h interact).1
        = ⟨c.x, c.y, c.w, c.h⟩) :
    resize ctx m c c.x c.y c.w c.h interact = m := by
  have h2 : (applysizehints ctx m c c.x c.y c.w c.h interact).2 = false := by
    rw [asz_snd, hfix]
    simp
  simp only [resize, h2, Bool.false_eq_true, if_false]

/-- applysizehints reads the monitor only through the window area and the
active layout. -/
theorem asz_mon_congr (ctx : Ctx) (m1 m2 : Monitor) (c : Client)
    (x y w h : Int) (interact : Bool)
    (h1 : m1.windowX = m2.windowX) (h2 : m1.windowY = m2.windowY)
    (h3 : m1.windowWidth = m2.windowWidth) (h4 : m1.windowHeight = m2.windowHeight)
    (h5 : m1.layout = m2.layout) :
    applysizehints ctx m1 c x y w h interact
      = applysizehints ctx m2 c x y w h interact := by
  simp only [applysizehints, h1, h2, h3, h4, h5]

/-- applysizehints does not read the saved-geometry, urgency, or ghost fields
of the client. -/
theorem asz_client_congr (ctx : Ctx) (m : Monitor) (c1 c2 : Client)
    (x y w h : Int) (interact : Bool)
    (e1 : c1.x = c2.x) (e2 : c1.y = c2.y) (e3 : c1.w = c2.w) (e4 : c1.h = c2.h)
    (e5 : c1.borderWidth = c2.borderWidth) (e6 : c1.isFloating = c2.isFloating)
    (e7 : c1.basew = c2.basew) (e8 : c1.baseh = c2.baseh)
    (e9 : c1.incw = c2.incw) (e10 : c1.inch = c2.inch)
    (e11 : c1.maxw = c2.maxw) (e12 : c1.maxh = c2.maxh)
    (e13 : c1.minw = c2.minw) (e14 : c1.minh = c2.minh)
    (e15 : c1.mina = c2.mina) (e16 : c1.maxa = c2.maxa) :
    applysizehints ctx m c1 x y w h interact
      = applysizehints ctx m c2 x y w h interact := by
  simp only [applysizehints, widthOf, heightOf, e1, e2, e3, e4, e5, e6, e7, e8,
    e9, e10, e11, e12, e13, e14, e15, e16]

end Dwm

namespace Dwm

/-! Extraction of individual fields from a monCfg equality, and stability of a
client whose geometry is already a fixed point of the hint clamps. -/

theorem monCfg_windowX {m1 m2 : Monitor} (h : monCfg m1 = monCfg m2) :
    m1.windowX = m2.windowX := congrArg (fun t => t.2.2.2.2.2.2.1) h

theorem monCfg_windowY {m1 m2 : Monitor} (h : monCfg m1 = monCfg m2) :
    m1.windowY = m2.windowY := congrArg (fun t => t.2.2.2.2.2.2.2.1) h

theorem monCfg_windowWidth {m1 m2 : Monitor} (h : monCfg m1 = monCfg m2) :
    m1.windowWidth = m2.windowWidth := congrArg (fun t => t.2.2.2.2.2.2.2.2.1) h

theorem monCfg_windowHeight {m1 m2 : Monitor} (h : monCfg m1 = monCfg m2) :
    m1.windowHeight = m2.windowHeight := congrArg (fun t => t.2.2.2.2.2.2.2.2.2.1) h

theorem monCfg_selectedTags {m1 m2 : Monitor} (h : monCfg m1 = monCfg m2) :
    m1.selectedTags = m2.selectedTags :=
  congrArg (fun t => t.2.2.2.2.2.2.2.2.2.2.1) h

theorem monCfg_tagSet0 {m1 m2 : Monitor} (h : monCfg m1 = monCfg m2) :
    m1.tagSet0 = m2.tagSet0 := congrArg (fun t => t.2.2.2.2.2.2.2.2.2.2.2.1) h

theorem monCfg_tagSet1 {m1 m2 : Monitor} (h : monCfg m1 = monCfg m2) :
    m1.tagSet1 = m2.tagSet1 := congrArg (fun t => t.2.2.2.2.2.2.2.2.2.2.2.2.1) h

theorem monCfg_layoutEq {m1 m2 : Monitor} (h : monCfg m1 = monCfg m2) :
    m1.layout = m2.layout := congrArg (fun t => t.2.2.2.2.2.2.2.2.2.2.2.2.2) h

theorem monTagset_of_monCfg {m1 m2 : Monitor} (h : monCfg m1 = monCfg m2) :
    monTagset m1 = monTagset m2 := by
  simp only [monTagset, monCfg_selectedTags h, monCfg_tagSet0 h, monCfg_tagSet1 h]

theorem isVisible_of_monCfg {m1 m2 : Monitor} (h : monCfg m1 = monCfg m2)
    (c : Client) : isVisible m1 c = isVisible m2 c := by
  simp only [isVisible, monTagset_of_monCfg h]

/-- showhide does not move a client whose geometry the hint clamps leave
unchanged (on any monitor with the same configuration). -/
theorem showhide_findClient_fixed (ctx : Ctx) (m0 : Monitor) (c : Client) (cid : Nat)
    (hfix : ∀ m' : Monitor, monCfg m' = monCfg m0 →
      (applysizehints ctx m' c c.x c.y c.w c.h false).1 = ⟨c.x, c.y, c.w, c.h⟩)
    (ids : List Nat) :
    ∀ (m : Monitor), monCfg m = monCfg m0 → findClient m cid = some c →
      findClient (showhide ctx ids m) cid = some c := by
  induction ids with
  | nil => intro m _ hf; exact hf
  | cons cid2 rest ih =>
    intro m hcfg hf
    simp only [showhide]
    split
    · exact ih m hcfg hf
    · rename_i c2 hc2
      split
      · split
        · rename_i hvis hcond
          by_cases he : c2.id = cid
          · have hcc : c2 = c := by
              have h4 : cid2 = cid := by rw [← findClient_id m cid2 c2 hc2, he]
              rw [h4, hf] at hc2
              exact (Option.some.injEq ..).mp hc2.symm
            subst hcc
            rw [resize_noop ctx m c2 false (hfix m hcfg)]
            exact ih m hcfg hf
          · exact ih _ (by rw [monCfg_resize]; exact hcfg)
              (by rw [findClient_resize_ne _ _ _ _ _ _ _ _ _ he]; exact hf)
        · exact ih m hcfg hf
      · exact ih m hcfg hf

end Dwm

namespace Dwm

theorem find?_map_update_self (l : List Client) (c' : Client) (cid : Nat)
    (c : Client) (hf : l.find? (fun d => d.id = cid) = some c)
    (hid : c'.id = c.id) :
    (l.map (fun d => if d.id = c'.id then c' else d)).find? (fun d => d.id = cid)
      = some c' := by
  have hcid : c.id = cid := by simpa using List.find?_some hf
  have hc' : (decide (c'.id = cid)) = true := by simp [hid, hcid]
  induction l with
  | nil => cases hf
  | cons d rest ih =>
    simp only [List.find?_cons] at hf
    simp only [List.map_cons, List.find?_cons]
    by_cases hdd : d.id = c'.id
    · rw [if_pos hdd, hc']
    · rw [if_neg hdd]
      have hd : (decide (d.id = cid)) = false := by
        simp only [decide_eq_false_iff_not]
        intro hcon
        exact hdd (by rw [hcon, hid, hcid])
      rw [hd]
      rw [hd] at hf
      exact ih hf

theorem findClient_updateClient_self (m : Monitor) (cid : Nat) (c c' : Client)
    (hf : findClient m cid = some c) (hid : c'.id = c.id) :
    findClient (updateClient m c') cid = some c' := by
  simp only [findClient, updateClient]
  exact find?_map_update_self m.clients c' cid c hf hid

theorem findClient_setSymbol (m : Monitor) (s : String) (cid : Nat) :
    findClient { m with layoutSymbol := s } cid = findClient m cid := rfl

theorem tile_findClient_floating (ctx : Ctx) (m : Monitor) (cid : Nat)
    (c : Client) (hf : findClient m cid = some c) (hfl : c.isFloating = true) :
    findClient (tile ctx m) cid = some c := by
  simp only [tile]
  split
  · exact hf
  · exact tileLoop_findClient_floating _ _ _ _ _ _ _ _ _ c hf hfl

theorem dwindle_findClient_floating (ctx : Ctx) (m : Monitor) (cid : Nat)
    (c : Client) (hf : findClient m cid = some c) (hfl : c.isFloating = true) :
    findClient (dwindle ctx m) cid = some c := by
  simp only [dwindle]
  split
  · exact hf
  · exact dwindleLoop_findClient_floating _ _ _ _ _ _ c hf hfl

theorem monocle_findClient_floating (ctx : Ctx) (m : Monitor) (cid : Nat)
    (c : Client) (hf : findClient m cid = some c) (hfl : c.isFloating = true) :
    findClient (monocle ctx m) cid = some c := by
  simp only [monocle]
  split
  · exact monocleLoop_findClient_floating _ _ _ _ c
      (by rw [findClient_setSymbol]; exact hf) hfl
  · exact monocleLoop_findClient_floating _ _ _ _ c hf hfl

theorem arrangemon_findClient_floating (ctx : Ctx) (m : Monitor) (cid : Nat)
    (c : Client) (hf : findClient m cid = some c) (hfl : c.isFloating = true) :
    findClient (arrangemon ctx m) cid = some c := by
  simp only [arrangemon]
  split
  · exact dwindle_findClient_floating _ _ _ c
      (by rw [findClient_setSymbol]; exact hf) hfl
  · exact tile_findClient_floating _ _ _ c
      (by rw [findClient_setSymbol]; exact hf) hfl
  · rw [findClient_setSymbol]; exact hf
  · exact monocle_findClient_floating _ _ _ c
      (by rw [findClient_setSymbol]; exact hf) hfl

/-- A floating client whose geometry is a fixed point of the hint clamps is
untouched by a whole arrange call. -/
theorem arrange_findClient_floating (ctx : Ctx) (m : Monitor) (cid : Nat)
    (c : Client) (hf : findClient m cid = some c) (hfl : c.isFloating = true)
    (hfix : ∀ m' : Monitor, monCfg m' = monCfg m →
      (applysizehints ctx m' c c.x c.y c.w c.h false).1 = ⟨c.x, c.y, c.w, c.h⟩) :
    findClient (arrange ctx m) cid = some c := by
  simp only [arrange]
  exact arrangemon_findClient_floating _ _ _ c
    (showhide_findClient_fixed ctx m c cid hfix m.stack m rfl hf) hfl

end Dwm

namespace Dwm

/-- resizeclient outside its borderless branch: plain field writes plus the
wire border. -/
theorem resizeclient_notborderless (m : Monitor) (c : Client) (x y w h : Int)
    (hcond : c.isFullscreen = true ∨ c.isFloating = true ∨ hasArrange m.layout = false) :
    resizeclient m c x y w h =
      updateClient m { c with
        oldx := c.x, x := x, oldy := c.y, y := y,
        oldw := c.w, w := w, oldh := c.h, h := h, xBorder := c.borderWidth } := by
  simp only [resizeclient]
  rcases hcond with h1 | h1 | h1 <;> simp [h1]

theorem monCfg_setfullscreen (ctx : Ctx) (m : Monitor) (cid : Nat) (fs : Bool) :
    monCfg (setfullscreen ctx m cid fs) = monCfg m := by
  simp only [setfullscreen]
  split
  · rfl
  · split
    · rw [monCfg_resizeclient, monCfg_updateClient]
    · split
      · rw [monCfg_arrange, monCfg_resizeclient, monCfg_updateClient]
      · rfl

/-- State of a client immediately after entering fullscreen: floating, border
width zero, fullscreen set, and every pre-fullscreen value saved in the
old-slots; the hint fields are untouched. -/
theorem setfullscreen_enter_state (ctx : Ctx) (m : Monitor) (cid : Nat) (c : Client)
    (hf : findClient m cid = some c)
    (hnf : c.isFullscreen = false) :
    ∃ ce, findClient (setfullscreen ctx m cid true) cid = some ce ∧
      ce.isFloating = true ∧ ce.borderWidth = 0 ∧
      ce.oldState = c.isFloating ∧ ce.oldBorderWidth = c.borderWidth ∧
      ce.oldx = c.x ∧ ce.oldy = c.y ∧ ce.oldw = c.w ∧ ce.oldh = c.h ∧
      ce.isFullscreen = true ∧ ce.id = c.id ∧
      ce.basew = c.basew ∧ ce.baseh = c.baseh ∧ ce.incw = c.incw ∧
      ce.inch = c.inch ∧ ce.maxw = c.maxw ∧ ce.maxh = c.maxh ∧
      ce.minw = c.minw ∧ ce.minh = c.minh ∧ ce.mina = c.mina ∧
      ce.maxa = c.maxa := by
  simp only [setfullscreen, hf, hnf, Bool.not_false, Bool.and_true, if_true]
  rw [resizeclient_notborderless _ _ _ _ _ _ (Or.inl rfl)]
  refine ⟨_, findClient_updateClient_self _ _ _ _
    (findClient_updateClient_self _ _ _ _ hf rfl) rfl, ?_⟩
  simp only [and_true, true_and]

/-- Round trip through fullscreen for a floating client whose geometry the
hint clamps leave in place: the floating flag, border width and geometry come
back exactly. -/
theorem setfullscreen_roundtrip_floating (ctx : Ctx) (m : Monitor) (cid : Nat)
    (c : Client)
    (hf : findClient m cid = some c)
    (hnf : c.isFullscreen = false)
    (hfl : c.isFloating = true)
    (hfix : ∀ m' : Monitor, monCfg m' = monCfg m →
      (applysizehints ctx m' c c.x c.y c.w c.h false).1 = ⟨c.x, c.y, c.w, c.h⟩) :
    ∃ cx, findClient (setfullscreen ctx (setfullscreen ctx m cid true) cid false) cid
        = some cx ∧
      cx.isFloating = c.isFloating ∧ cx.borderWidth = c.borderWidth ∧
      cx.x = c.x ∧ cx.y = c.y ∧ cx.w = c.w ∧ cx.h = c.h := by
  obtain ⟨ce, hfe, he1, he2, he3, he4, he5, he6, he7, he8, he9, he10,
    hb1, hb2, hb3, hb4, hb5, hb6, hb7, hb8, hb9, hb10⟩ :=
    setfullscreen_enter_state ctx m cid c hf hnf
  have hcfg : monCfg (setfullscreen ctx m cid true) = monCfg m :=
    monCfg_setfullscreen ctx m cid true
  generalize hgen : setfullscreen ctx m cid true = me at hfe hcfg ⊢
  simp only [setfullscreen, hfe, he9, Bool.not_true, Bool.and_false,
    Bool.false_and, Bool.not_false, Bool.and_true, Bool.true_and, if_false,
    Bool.false_eq_true, if_true]
  rw [resizeclient_notborderless _ _ _ _ _ _ (Or.inr (Or.inl (by
    simp only [he3, hfl])))]
  refine ⟨_, arrange_findClient_floating _ _ _ _
      (findClient_updateClient_self _ _ _ _
        (findClient_updateClient_self _ _ _ _ hfe rfl) rfl)
      (by simp only [he3, hfl]) ?_, ?_⟩
  · intro m2 hm2
    have hcfg2 : monCfg m2 = monCfg m := by
      rw [hm2, monCfg_updateClient, monCfg_updateClient, hcfg]
    have hbase := hfix m2 hcfg2
    rw [asz_client_congr ctx m2 _ c _ _ _ _ false
      (by simp only [he5]) (by simp only [he6]) (by simp only [he7])
      (by simp only [he8]) (by simp only [he4]) (by simp only [he3])
      (by simp only [hb1]) (by simp only [hb2]) (by simp only [hb3])
      (by simp only [hb4]) (by simp only [hb5]) (by simp only [hb6])
      (by simp only [hb7]) (by simp only [hb8]) (by simp only [hb9])
      (by simp only [hb10])]
    simp only [he5, he6, he7, he8]
    exact hbase
  · simp only [he3, he4, he5, he6, he7, he8, and_self, and_true, true_and]

end Dwm

namespace Dwm

/-- Fixture for the C4 counterexample: a tiled (non-floating) client whose
stored geometry differs from the slot the tile layout computes. -/
def c4Client : Client := { baseClient 1 with w := 998, h := 778 }

/-- Monitor of the C4 counterexample: tile layout, the client is alone. -/
def c4Monitor : Monitor :=
  { baseMonitor .tileL 0 0 1000 800 with
    clients := [c4Client], stack := [1], selectedClient := some 1 }

/-- C4, counterexample.  As stated the claim fails for a tiled client: on
leaving fullscreen the restore step feeds the saved geometry through
resizeclient, whose borderless branch (the client is the sole tiled client)
widens w and h by twice the border width, and the arrange call at the end of
setfullscreen then reassigns the tile slot; the pre-fullscreen 998 x 778
rectangle comes back as 1000 x 800.  The floating flag and border width are
restored exactly. -/
theorem C4_counterexample :
    c4Client.w = 998 ∧ c4Client.h = 778 ∧
    (findClient (setfullscreen ctx0 (setfullscreen ctx0 c4Monitor 1 true) 1 false) 1).map
        (fun c => (c.x, c.y, c.w, c.h, c.isFloating, c.borderWidth))
      = some (0, 0, 1000, 800, false, 1) := by
  refine ⟨rfl, rfl, by decide⟩

/-- C4 (amended): a client that is not fullscreen acquires isFloating = true
and border width 0 on entering fullscreen; on leaving fullscreen the floating
flag, border width and geometry (x, y, w, h) are restored exactly, provided
the client was floating before entering and its geometry is a fixed point of
the size-hint clamps (for a tiled client the stored width and height are
instead re-derived by the layout, widened by twice the border width with the
wire border suppressed, see the counterexample). -/
theorem C4_fullscreen_roundtrip (ctx : Ctx) (m : Monitor) (cid : Nat) (c : Client)
    (hf : findClient m cid = some c)
    (hnf : c.isFullscreen = false)
    (hfl : c.isFloating = true)
    (hfix0 : (applysizehints ctx m c c.x c.y c.w c.h false).1
        = ⟨c.x, c.y, c.w, c.h⟩) :
    (∃ ce, findClient (setfullscreen ctx m cid true) cid = some ce ∧
      ce.isFloating = true ∧ ce.borderWidth = 0) ∧
    (∃ cx, findClient (setfullscreen ctx (setfullscreen ctx m cid true) cid false) cid
        = some cx ∧
      cx.isFloating = c.isFloating ∧ cx.borderWidth = c.borderWidth ∧
      cx.x = c.x ∧ cx.y = c.y ∧ cx.w = c.w ∧ cx.h = c.h) := by
  have hfix : ∀ m' : Monitor, monCfg m' = monCfg m →
      (applysizehints ctx m' c c.x c.y c.w c.h false).1 = ⟨c.x, c.y, c.w, c.h⟩ := by
    intro m' hm'
    rw [asz_mon_congr ctx m' m c _ _ _ _ false (monCfg_windowX hm')
      (monCfg_windowY hm') (monCfg_windowWidth hm') (monCfg_windowHeight hm')
      (monCfg_layoutEq hm')]
    exact hfix0
  constructor
  · obtain ⟨ce, h1, h2, h3, _⟩ := setfullscreen_enter_state ctx m cid c hf hnf
    exact ⟨ce, h1, h2, h3⟩
  · exact setfullscreen_roundtrip_floating ctx m cid c hf hnf hfl hfix

/-- Fixture for the C4 witness: a floating client at rest. -/
def c4wClient : Client :=
  { baseClient 1 with isFloating := true, x := 100, y := 120, w := 300, h := 200 }

/-- Monitor of the C4 witness. -/
def c4wMonitor : Monitor :=
  { baseMonitor .tileL 0 0 1000 800 with
    clients := [c4wClient], stack := [1], selectedClient := some 1 }

/-- C4, witness: the round trip at a concrete floating client. -/
theorem C4_witness :
    (∃ ce, findClient (setfullscreen ctx0 c4wMonitor 1 true) 1 = some ce ∧
      ce.isFloating = true ∧ ce.borderWidth = 0) ∧
    (∃ cx, findClient (setfullscreen ctx0 (setfullscreen ctx0 c4wMonitor 1 true) 1 false) 1
        = some cx ∧
      cx.isFloating = c4wClient.isFloating ∧ cx.borderWidth = c4wClient.borderWidth ∧
      cx.x = c4wClient.x ∧ cx.y = c4wClient.y ∧ cx.w = c4wClient.w ∧
      cx.h = c4wClient.h) :=
  C4_fullscreen_roundtrip ctx0 c4wMonitor 1 c4wClient (by decide) (by decide)
    (by decide) (by decide)

end Dwm

namespace Dwm

/-! Tag invariants: clients and monitors always carry nonzero masked tag
sets. -/

/-- A valid tag word: nonzero and confined to the tag bits. -/
def tagsOk (t : Nat) : Prop := t ≠ 0 ∧ t &&& TAGMASK = t

/-- Every client of the monitor carries a valid tag word. -/
def clientsTagsOk (m : Monitor) : Prop := ∀ c ∈ m.clients, tagsOk c.tags

instance (t : Nat) : Decidable (tagsOk t) := by
  unfold tagsOk
  infer_instance

instance (m : Monitor) : Decidable (clientsTagsOk m) := by
  unfold clientsTagsOk
  infer_instance

theorem mem_updateClient {m : Monitor} {c' e : Client}
    (he : e ∈ (updateClient m c').clients) : e = c' ∨ e ∈ m.clients := by
  simp only [updateClient, List.mem_map] at he
  obtain ⟨d, hd, hde⟩ := he
  by_cases h : d.id = c'.id
  · rw [if_pos h] at hde
    exact Or.inl hde.symm
  · rw [if_neg h] at hde
    exact Or.inr (hde ▸ hd)

theorem clientsTagsOk_updateClient {m : Monitor} {c' : Client}
    (h : clientsTagsOk m) (hc : tagsOk c'.tags) :
    clientsTagsOk (updateClient m c') := by
  intro e he
  rcases mem_updateClient he with h1 | h1
  · rw [h1]; exact hc
  · exact h e h1

theorem clientsTagsOk_resizeclient {m : Monitor} {c : Client} {x y w h : Int}
    (hm : clientsTagsOk m) (hc : tagsOk c.tags) :
    clientsTagsOk (resizeclient m c x y w h) := by
  simp only [resizeclient]
  split <;> exact clientsTagsOk_updateClient hm hc

theorem clientsTagsOk_resize {ctx : Ctx} {m : Monitor} {c : Client}
    {x y w h : Int} {interact : Bool}
    (hm : clientsTagsOk m) (hc : tagsOk c.tags) :
    clientsTagsOk (resize ctx m c x y w h interact) := by
  simp only [resize]
  split
  · exact clientsTagsOk_resizeclient hm hc
  · exact hm

theorem clientsTagsOk_tileLoop (ctx : Ctx) (n : Nat) (mw : Int) (ids : List Nat)
    (m : Monitor) (i my ty : Nat) (hm : clientsTagsOk m) :
    clientsTagsOk (tileLoop ctx n mw ids m i my ty) := by
  induction ids generalizing m i my ty with
  | nil => exact hm
  | cons cid rest ih =>
    simp only [tileLoop]
    split
    · exact ih _ _ _ _ hm
    · rename_i c2 hc2
      have hc : tagsOk c2.tags := hm c2 (findClient_mem _ _ _ hc2)
      split
      · split
        · exact ih _ _ _ _ (clientsTagsOk_resize hm hc)
        · exact ih _ _ _ _ (clientsTagsOk_resize hm hc)
      · exact ih _ _ _ _ hm

theorem clientsTagsOk_monocleLoop (ctx : Ctx) (ids : List Nat) (m : Monitor)
    (hm : clientsTagsOk m) : clientsTagsOk (monocleLoop ctx ids m) := by
  induction ids generalizing m with
  | nil => exact hm
  | cons cid rest ih =>
    simp only [monocleLoop]
    split
    · exact ih _ hm
    · rename_i c2 hc2
      have hc : tagsOk c2.tags := hm c2 (findClient_mem _ _ _ hc2)
      split
      · exact ih _ (clientsTagsOk_resize hm hc)
      · exact ih _ hm

theorem clientsTagsOk_dwindleLoop (ctx : Ctx) (n : Nat) (ids : List Nat)
    (m : Monitor) (s : DwState) (hm : clientsTagsOk m) :
    clientsTagsOk (dwindleLoop ctx n ids m s).1 := by
  induction ids generalizing m s with
  | nil => exact hm
  | cons cid rest ih =>
    simp only [dwindleLoop]
    split
    · exact ih _ _ hm
    · rename_i c2 hc2
      have hc : tagsOk c2.tags := hm c2 (findClient_mem _ _ _ hc2)
      split
      · exact ih _ _ (clientsTagsOk_resize hm hc)
      · exact ih _ _ hm

theorem clientsTagsOk_showhide (ctx : Ctx) (ids : List Nat) (m : Monitor)
    (hm : clientsTagsOk m) : clientsTagsOk (showhide ctx ids m) := by
  induction ids generalizing m with
  | nil => exact hm
  | cons cid rest ih =>
    simp only [showhide]
    split
    · exact ih _ hm
    · rename_i c2 hc2
      have hc : tagsOk c2.tags := hm c2 (findClient_mem _ _ _ hc2)
      split
      · split
        · exact ih _ (clientsTagsOk_resize hm hc)
        · exact ih _ hm
      · exact ih _ hm

theorem clientsTagsOk_setSymbol {m : Monitor} {s : String}
    (hm : clientsTagsOk m) : clientsTagsOk { m with layoutSymbol := s } := hm

theorem clientsTagsOk_arrangemon (ctx : Ctx) (m : Monitor)
    (hm : clientsTagsOk m) : clientsTagsOk (arrangemon ctx m) := by
  simp only [arrangemon]
  split
  · simp only [dwindle]
    split
    · exact hm
    · exact clientsTagsOk_dwindleLoop _ _ _ _ _ hm
  · simp only [tile]
    split
    · exact hm
    · exact clientsTagsOk_tileLoop _ _ _ _ _ _ _ _ hm
  · exact hm
  · simp only [monocle]
    split
    · exact clientsTagsOk_monocleLoop _ _ _ hm
    · exact clientsTagsOk_monocleLoop _ _ _ hm

theorem clientsTagsOk_arrange (ctx : Ctx) (m : Monitor)
    (hm : clientsTagsOk m) : clientsTagsOk (arrange ctx m) :=
  clientsTagsOk_arrangemon _ _ (clientsTagsOk_showhide _ _ _ hm)

theorem firstVisibleInStack_mem (m : Monitor) (ids : List Nat) (c : Client)
    (h : firstVisibleInStack m ids = some c) : c ∈ m.clients := by
  induction ids with
  | nil => cases h
  | cons cid rest ih =>
    simp only [firstVisibleInStack] at h
    rcases hc : findClient m cid with _ | c2
    · simp only [hc] at h
      exact ih h
    · simp only [hc] at h
      by_cases hv : isVisible m c2
      · rw [if_pos hv] at h
        cases h
        exact findClient_mem _ _ _ hc
      · rw [if_neg hv] at h
        exact ih h

theorem focusResolve_mem (m : Monitor) (target : Option Nat) (c : Client)
    (h : focusResolve m target = some c) : c ∈ m.clients := by
  simp only [focusResolve] at h
  rcases ht : target.bind (findClient m) with _ | c2
  · simp only [ht] at h
    exact firstVisibleInStack_mem _ _ _ h
  · simp only [ht] at h
    by_cases hv : isVisible m c2
    · rw [if_pos hv] at h
      cases h
      rcases target with _ | cid
      · cases ht
      · exact findClient_mem _ _ _ ht
    · rw [if_neg hv] at h
      exact firstVisibleInStack_mem _ _ _ h

theorem clientsTagsOk_detachStack {m : Monitor} {cid : Nat}
    (hm : clientsTagsOk m) : clientsTagsOk (detachStack m cid) := by
  simp only [detachStack]
  split <;> exact hm

theorem clientsTagsOk_focus (m : Monitor) (target : Option Nat)
    (hm : clientsTagsOk m) : clientsTagsOk (focus m target) := by
  simp only [focus]
  rcases hr : focusResolve m target with _ | c
  · exact hm
  · have hc : tagsOk c.tags := hm c (focusResolve_mem _ _ _ hr)
    intro e he
    have he2 : e ∈ (updateClient (attachStack (detachStack m c.id) c.id)
        { c with isUrgent := false }).clients := he
    rcases mem_updateClient he2 with h1 | h1
    · rw [h1]; exact hc
    · exact clientsTagsOk_detachStack hm e h1

end Dwm

namespace Dwm

/-- The final line of applyrules (dwm.c line 312): the tags accumulated from
the rule table (an arbitrary word t, since the rule table is external
configuration) are masked; an empty result falls back to the tag set
currently viewed on the owning monitor. -/
def applyrulesTags (t : Nat) (m : Monitor) : Nat :=
  if t &&& TAGMASK ≠ 0 then t &&& TAGMASK else monTagset m

/-- C8: toggling a tag set whose removal would empty the tag mask of the
selected client is a complete no-op (the state, hence also the focus and the
arrangement, is unchanged); toggletag preserves validity (nonzero, confined)
of every client tag word, and the tag word applyrules assigns at creation is
valid whenever the monitor tag set is. -/
theorem C8_toggletag_invariant :
    (∀ (ctx : Ctx) (m : Monitor) (cid : Nat) (c : Client) (argui : Nat),
      m.selectedClient = some cid → findClient m cid = some c →
      c.tags ^^^ (argui &&& TAGMASK) = 0 →
      toggletag ctx m argui = m) ∧
    (∀ (ctx : Ctx) (m : Monitor) (argui : Nat),
      clientsTagsOk m → clientsTagsOk (toggletag ctx m argui)) ∧
    (∀ (t : Nat) (m : Monitor), tagsOk (monTagset m) →
      tagsOk (applyrulesTags t m)) := by
  refine ⟨?_, ?_, ?_⟩
  · intro ctx m cid c argui hsel hf hz
    simp only [toggletag, hsel, Option.some_bind, hf, hz, ne_eq,
      not_true_eq_false, ite_false, if_false]
  · intro ctx m argui hm
    simp only [toggletag]
    rcases hb : m.selectedClient.bind (findClient m) with _ | c
    · simp only [hb]; exact hm
    · simp only [hb]
      have hmem : c ∈ m.clients := by
        rcases hs : m.selectedClient with _ | cid
        · rw [hs] at hb; cases hb
        · rw [hs, Option.some_bind] at hb
          exact findClient_mem _ _ _ hb
      have hc := hm c hmem
      split
      · rename_i hnz
        have hok : tagsOk (c.tags ^^^ (argui &&& TAGMASK)) := by
          refine ⟨hnz, ?_⟩
          rw [Nat.and_xor_distrib_right, hc.2, Nat.and_assoc, Nat.and_self]
        exact clientsTagsOk_arrange _ _
          (clientsTagsOk_focus _ _ (clientsTagsOk_updateClient hm hok))
      · exact hm
  · intro t m hm
    simp only [applyrulesTags]
    split
    · rename_i hnz
      exact ⟨hnz, by rw [Nat.and_assoc, Nat.and_self]⟩
    · exact hm

/-- Both tag-set slots of the monitor are valid. -/
def monTagsOk (m : Monitor) : Prop := tagsOk m.tagSet0 ∧ tagsOk m.tagSet1

instance (m : Monitor) : Decidable (monTagsOk m) := by
  unfold monTagsOk
  infer_instance

theorem monTagsOk_of_monCfg {m1 m2 : Monitor} (h : monCfg m1 = monCfg m2)
    (hm : monTagsOk m2) : monTagsOk m1 := by
  unfold monTagsOk
  rw [monCfg_tagSet0 h, monCfg_tagSet1 h]
  exact hm

theorem monTagsOk_setMonTagset {m : Monitor} {t : Nat} (hm : monTagsOk m)
    (ht : tagsOk t) : monTagsOk (setMonTagset m t) := by
  simp only [setMonTagset]
  split
  · exact ⟨ht, hm.2⟩
  · exact ⟨hm.1, ht⟩

theorem monTagset_ne_zero {m : Monitor} (hm : monTagsOk m) : monTagset m ≠ 0 := by
  simp only [monTagset]
  split
  · exact hm.1.1
  · exact hm.2.1

/-- C10: a monitor is created with both tag-set slots equal to 1; view and
toggleview preserve validity (nonzero, confined) of both slots, hence the
currently viewed tag set is always nonzero; and a toggleview that would empty
the viewed tag set leaves the whole state unchanged. -/
theorem C10_viewed_tags_nonzero :
    (∀ (mf : ℚ) (nm : Nat), (createMonitor mf nm).tagSet0 = 1 ∧
      (createMonitor mf nm).tagSet1 = 1) ∧
    (∀ (ctx : Ctx) (m : Monitor) (argui : Nat),
      monTagsOk m → monTagsOk (view ctx m argui)) ∧
    (∀ (ctx : Ctx) (m : Monitor) (argui : Nat),
      monTagsOk m → monTagsOk (toggleview ctx m argui)) ∧
    (∀ (ctx : Ctx) (m : Monitor) (argui : Nat),
      monTagset m ^^^ (argui &&& TAGMASK) = 0 → toggleview ctx m argui = m) ∧
    (∀ m : Monitor, monTagsOk m → monTagset m ≠ 0) := by
  refine ⟨fun mf nm => ⟨rfl, rfl⟩, ?_, ?_, ?_, fun m hm => monTagset_ne_zero hm⟩
  · intro ctx m argui hm
    simp only [view]
    split
    · exact hm
    · have hm1 : monTagsOk { m with selectedTags := m.selectedTags ^^^ 1 } := hm
      refine monTagsOk_of_monCfg (monCfg_arrange ..) (monTagsOk_of_monCfg (monCfg_focus ..) ?_)
      split
      · rename_i hnz
        exact monTagsOk_setMonTagset hm1
          ⟨hnz, by rw [Nat.and_assoc, Nat.and_self]⟩
      · exact hm1
  · intro ctx m argui hm
    simp only [toggleview]
    split
    · rename_i hnz
      refine monTagsOk_of_monCfg (monCfg_arrange ..) (monTagsOk_of_monCfg (monCfg_focus ..) ?_)
      refine monTagsOk_setMonTagset hm ⟨hnz, ?_⟩
      have hc : monTagset m &&& TAGMASK = monTagset m := by
        simp only [monTagset]
        split
        · exact hm.1.2
        · exact hm.2.2
      rw [Nat.and_xor_distrib_right, hc, Nat.and_assoc, Nat.and_self]
    · exact hm
  · intro ctx m argui hz
    simp only [toggleview, hz, ne_eq, not_true_eq_false, ite_false, if_false]

end Dwm

namespace Dwm

/-- Fixture client for the C8 witness: tags 3 (tags 1 and 2 set). -/
def c8Client : Client := { baseClient 1 with tags := 3 }

/-- Fixture monitor for the C8 witness. -/
def c8Mon : Monitor :=
  { baseMonitor .tileL 0 0 1000 800 with
    clients := [c8Client], stack := [1], selectedClient := some 1 }

/-- C8, witness: toggling away both set tags of the selected client is a
no-op; a genuine toggle keeps all client tag words valid; applyrules with an
empty rule accumulation yields the monitor tag set. -/
theorem C8_witness :
    toggletag ctx0 c8Mon 3 = c8Mon ∧
    clientsTagsOk (toggletag ctx0 c8Mon 2) ∧
    tagsOk (applyrulesTags 0 c8Mon) :=
  ⟨C8_toggletag_invariant.1 ctx0 c8Mon 1 c8Client 3 (by decide) (by decide)
      (by decide),
   C8_toggletag_invariant.2.1 ctx0 c8Mon 2 (by decide),
   C8_toggletag_invariant.2.2 0 c8Mon (by decide)⟩

/-- Fixture monitor for the C10 witness (fresh monitor state: both slots 1). -/
def c10Mon : Monitor := baseMonitor .tileL 0 0 1000 800

/-- C10, witness: concrete instances of each conjunct. -/
theorem C10_witness :
    ((createMonitor (mkRat 1 2) 1).tagSet0 = 1 ∧
      (createMonitor (mkRat 1 2) 1).tagSet1 = 1) ∧
    monTagsOk (view ctx0 c10Mon 4) ∧
    monTagsOk (toggleview ctx0 c10Mon 2) ∧
    toggleview ctx0 c10Mon 1 = c10Mon ∧
    monTagset c10Mon ≠ 0 :=
  ⟨C10_viewed_tags_nonzero.1 (mkRat 1 2) 1,
   C10_viewed_tags_nonzero.2.1 ctx0 c10Mon 4 (by decide),
   C10_viewed_tags_nonzero.2.2.1 ctx0 c10Mon 2 (by decide),
   C10_viewed_tags_nonzero.2.2.2.1 ctx0 c10Mon 1 (by decide),
   C10_viewed_tags_nonzero.2.2.2.2 c10Mon (by decide)⟩

/-- C5: when focus is called with no target or with a target that is not
visible under the current tag set, the resolved target is the first visible
client in the selected monitor stack (most-recently-focused order), and the
monitor selection is set to it. -/
theorem C5_focus_fallback (m : Monitor) (target : Option Nat)
    (hinv : ∀ c : Client, target.bind (findClient m) = some c →
      isVisible m c = false) :
    focusResolve m target = firstVisibleInStack m m.stack ∧
    (focus m target).selectedClient
      = (firstVisibleInStack m m.stack).map Client.id := by
  have h1 : focusResolve m target = firstVisibleInStack m m.stack := by
    simp only [focusResolve]
    rcases ht : target.bind (findClient m) with _ | c2
    · simp only [ht]
    · simp only [ht, hinv c2 ht, Bool.false_eq_true, if_false]
  refine ⟨h1, ?_⟩
  simp only [focus, h1]
  rcases hr : firstVisibleInStack m m.stack with _ | c
  · simp only [hr]
    rfl
  · simp only [hr]
    rfl

/-- Fixture clients for the C5 scenario: C1 and C2 share tag 1 (visible under
the viewed tag set 1), C3 carries only tag 2 (invisible). -/
def c5C1 : Client := baseClient 1

/-- Second visible client of the C5 scenario. -/
def c5C2 : Client := baseClient 2

/-- The invisible most-recently-focused client of the C5 scenario. -/
def c5C3 : Client := { baseClient 3 with tags := 2 }

/-- Monitor of the C5 scenario: stack order [C3, C1, C2]. -/
def c5Mon : Monitor :=
  { baseMonitor .tileL 0 0 1000 800 with
    clients := [c5C1, c5C2, c5C3], stack := [3, 1, 2], selectedClient := some 3 }

/-- C5, witness: removing C3 from the stack and running the focus fallback
resolves to C1, the most recently focused visible client, not to any
client-list position. -/
theorem C5_witness :
    (detachStack c5Mon 3).stack = [1, 2] ∧
    (focus (detachStack c5Mon 3) none).selectedClient = some 1 := by
  refine ⟨by decide, ?_⟩
  have h := (C5_focus_fallback (detachStack c5Mon 3) none
    (fun c hc => by cases hc)).2
  rw [h]
  decide

end Dwm

namespace Dwm

/-- Bundle: all size-hint fields of the client are zero (the defaults used
when a client provides no hints). -/
def noHints (c : Client) : Prop :=
  c.basew = 0 ∧ c.baseh = 0 ∧ c.incw = 0 ∧ c.inch = 0 ∧ c.maxw = 0 ∧
  c.maxh = 0 ∧ c.minw = 0 ∧ c.minh = 0 ∧ c.mina = 0

instance (c : Client) : Decidable (noHints c) := by
  unfold noHints
  infer_instance

/-- The client occupies exactly the rectangle (wx, wy, ww, wh), borders
included (xBorder is the wire border actually drawn). -/
def fillsArea (wx wy ww wh : Int) (c : Client) : Prop :=
  c.x = wx ∧ c.y = wy ∧ c.w + 2 * c.xBorder = ww ∧ c.h + 2 * c.xBorder = wh

instance (wx wy ww wh : Int) (c : Client) : Decidable (fillsArea wx wy ww wh c) := by
  unfold fillsArea
  infer_instance

theorem resizeclient_borderless_monocle (m : Monitor) (c : Client) (x y w h : Int)
    (hml : m.layout = .monocleL) (hfs : c.isFullscreen = false)
    (hfl : c.isFloating = false) :
    resizeclient m c x y w h =
      updateClient m { c with
        oldx := c.x, x := x, oldy := c.y, y := y,
        oldw := c.w, w := w + 2 * c.borderWidth,
        oldh := c.h, h := h + 2 * c.borderWidth, xBorder := 0 } := by
  simp only [resizeclient, hml, hfs, hfl]
  rw [if_pos (by simp [hasArrange])]

set_option maxHeartbeats 1000000 in
theorem resize_fills_monocle (ctx : Ctx) (m : Monitor) (c : Client)
    (hml : m.layout = .monocleL)
    (hnh : noHints c) (hfl : c.isFloating = false) (hfs : c.isFullscreen = false)
    (hb : 0 ≤ c.borderWidth)
    (hgx : 0 ≤ m.windowX) (hgy : 0 ≤ m.windowY)
    (hsx : m.windowX ≤ ctx.screenWidth) (hsy : m.windowY ≤ ctx.screenHeight)
    (hw1 : 1 ≤ m.windowWidth - 2 * c.borderWidth)
    (hw2 : ctx.barHeight ≤ m.windowWidth - 2 * c.borderWidth)
    (hh1 : 1 ≤ m.windowHeight - 2 * c.borderWidth)
    (hh2 : ctx.barHeight ≤ m.windowHeight - 2 * c.borderWidth)
    (hfc : findClient m c.id = some c)
    (hxb : c.xBorder = c.borderWidth ∨
      fillsArea m.windowX m.windowY m.windowWidth m.windowHeight c) :
    ∃ c', findClient (resize ctx m c m.windowX m.windowY
        (m.windowWidth - 2 * c.borderWidth)
        (m.windowHeight - 2 * c.borderWidth) false) c.id = some c' ∧
      fillsArea m.windowX m.windowY m.windowWidth m.windowHeight c' ∧
      c'.id = c.id ∧ noHints c' ∧ c'.isFloating = false ∧
      c'.isFullscreen = false ∧ c'.borderWidth = c.borderWidth ∧
      c'.tags = c.tags := by
  obtain ⟨n1, n2, n3, n4, n5, n6, n7, n8, n9⟩ := hnh
  have hasz := applysizehints_nohints ctx m c m.windowX m.windowY
    (m.windowWidth - 2 * c.borderWidth) (m.windowHeight - 2 * c.borderWidth) false
    n1 n2 n3 n4 n5 n6 n7 n8 n9 hw1 hh1 hw2 hh2
    (by omega) (by omega) (by omega) (by omega) hsx hsy (by omega) (by omega)
  by_cases hch : (m.windowX != c.x || m.windowY != c.y
      || (m.windowWidth - 2 * c.borderWidth) != c.w
      || (m.windowHeight - 2 * c.borderWidth) != c.h) = true
  · simp only [resize, hasz, hch, if_true]
    rw [resizeclient_borderless_monocle m c _ _ _ _ hml hfs hfl]
    refine ⟨_, findClient_updateClient_self _ _ _ _ hfc rfl, ?_, rfl, ?_, hfl,
      hfs, rfl, rfl⟩
    · exact ⟨rfl, rfl, by simp, by simp⟩
    · exact ⟨n1, n2, n3, n4, n5, n6, n7, n8, n9⟩
  · have hx : m.windowX = c.x ∧ m.windowY = c.y
        ∧ m.windowWidth - 2 * c.borderWidth = c.w
        ∧ m.windowHeight - 2 * c.borderWidth = c.h := by
      simp only [Bool.or_eq_true, not_or, bne_iff_ne, ne_eq, not_not] at hch
      exact ⟨hch.1.1.1, hch.1.1.2, hch.1.2, hch.2⟩
    simp only [resize, hasz, hch, if_false]
    refine ⟨c, hfc, ?_, rfl, ⟨n1, n2, n3, n4, n5, n6, n7, n8, n9⟩, hfl, hfs,
      rfl, rfl⟩
    rcases hxb with hxb | hxb
    · exact ⟨hx.1.symm, hx.2.1.symm, by omega, by omega⟩
    · exact hxb

end Dwm

namespace Dwm

theorem layoutSymbol_updateClient (m : Monitor) (c : Client) :
    (updateClient m c).layoutSymbol = m.layoutSymbol := rfl

theorem layoutSymbol_resizeclient (m : Monitor) (c : Client) (x y w h : Int) :
    (resizeclient m c x y w h).layoutSymbol = m.layoutSymbol := by
  simp only [resizeclient]
  split <;> rfl

theorem layoutSymbol_resize (ctx : Ctx) (m : Monitor) (c : Client)
    (x y w h : Int) (interact : Bool) :
    (resize ctx m c x y w h interact).layoutSymbol = m.layoutSymbol := by
  simp only [resize]
  split
  · exact layoutSymbol_resizeclient ..
  · rfl

theorem layoutSymbol_monocleLoop (ctx : Ctx) (ids : List Nat) (m : Monitor) :
    (monocleLoop ctx ids m).layoutSymbol = m.layoutSymbol := by
  induction ids generalizing m with
  | nil => rfl
  | cons cid rest ih =>
    simp only [monocleLoop]
    split
    · exact ih _
    · split
      · rw [ih]; exact layoutSymbol_resize ..
      · exact ih _

theorem monocleLoop_fills (ctx : Ctx) (m0 : Monitor) (cid : Nat)
    (hml : m0.layout = .monocleL)
    (hgx : 0 ≤ m0.windowX) (hgy : 0 ≤ m0.windowY)
    (hsx : m0.windowX ≤ ctx.screenWidth) (hsy : m0.windowY ≤ ctx.screenHeight) :
    ∀ (ids : List Nat) (m : Monitor), monCfg m = monCfg m0 →
    ∀ c : Client, findClient m cid = some c →
      noHints c → c.isFloating = false → c.isFullscreen = false →
      isVisible m0 c = true →
      0 ≤ c.borderWidth →
      1 ≤ m0.windowWidth - 2 * c.borderWidth →
      ctx.barHeight ≤ m0.windowWidth - 2 * c.borderWidth →
      1 ≤ m0.windowHeight - 2 * c.borderWidth →
      ctx.barHeight ≤ m0.windowHeight - 2 * c.borderWidth →
      (c.xBorder = c.borderWidth ∨
        fillsArea m0.windowX m0.windowY m0.windowWidth m0.windowHeight c) →
      (cid ∈ ids ∨
        fillsArea m0.windowX m0.windowY m0.windowWidth m0.windowHeight c) →
      ∃ c', findClient (monocleLoop ctx ids m) cid = some c' ∧
        fillsArea m0.windowX m0.windowY m0.windowWidth m0.windowHeight c' := by
  intro ids
  induction ids with
  | nil =>
    intro m hcfg c hfc hnh hfl hfs hvis hb hw1 hw2 hh1 hh2 hxb hmem
    rcases hmem with hmem | hmem
    · cases hmem
    · exact ⟨c, hfc, hmem⟩
  | cons cid2 rest ih =>
    intro m hcfg c hfc hnh hfl hfs hvis hb hw1 hw2 hh1 hh2 hxb hmem
    simp only [monocleLoop]
    rcases hc2 : findClient m cid2 with _ | c2
    · simp only [hc2]
      refine ih m hcfg c hfc hnh hfl hfs hvis hb hw1 hw2 hh1 hh2 hxb ?_
      rcases hmem with hmem | hmem
      · rcases List.mem_cons.mp hmem with he | he
        · exfalso; rw [he] at hfc; rw [hfc] at hc2; cases hc2
        · exact Or.inl he
      · exact Or.inr hmem
    · simp only [hc2]
      by_cases he : cid2 = cid
      · subst he
        have hcc : c2 = c := by rw [hfc] at hc2; cases hc2; rfl
        subst hcc
        have hvis2 : isVisible m c2 = true := by
          rw [isVisible_of_monCfg hcfg]; exact hvis
        rw [if_pos (by simp [hfl, hvis2])]
        have hidc : c2.id = cid2 := findClient_id m cid2 c2 hc2
        have hfc2 : findClient m c2.id = some c2 := by rw [hidc]; exact hc2
        have hgeom := resize_fills_monocle ctx m c2
          (by rw [monCfg_layoutEq hcfg]; exact hml)
          hnh hfl hfs hb
          (by rw [monCfg_windowX hcfg]; exact hgx)
          (by rw [monCfg_windowY hcfg]; exact hgy)
          (by rw [monCfg_windowX hcfg]; exact hsx)
          (by rw [monCfg_windowY hcfg]; exact hsy)
          (by rw [monCfg_windowWidth hcfg]; exact hw1)
          (by rw [monCfg_windowWidth hcfg]; exact hw2)
          (by rw [monCfg_windowHeight hcfg]; exact hh1)
          (by rw [monCfg_windowHeight hcfg]; exact hh2)
          hfc2 ?xb
        case xb =>
          rcases hxb with hxb | hxb
          · exact Or.inl hxb
          · refine Or.inr ?_
            unfold fillsArea at hxb ⊢
            rw [monCfg_windowX hcfg, monCfg_windowY hcfg,
              monCfg_windowWidth hcfg, monCfg_windowHeight hcfg]
            exact hxb
        obtain ⟨c', hfc', hfill, hid', hnh', hfl', hfs', hbw', htags'⟩ := hgeom
        have hfill0 : fillsArea m0.windowX m0.windowY m0.windowWidth
            m0.windowHeight c' := by
          unfold fillsArea at hfill ⊢
          rw [monCfg_windowX hcfg, monCfg_windowY hcfg,
            monCfg_windowWidth hcfg, monCfg_windowHeight hcfg] at hfill
          exact hfill
        rw [hidc] at hfc'
        refine ih _ ?_ c' hfc' hnh' hfl' hfs' ?_ ?_ ?_ ?_ ?_ ?_ (Or.inr hfill0) (Or.inr hfill0)
        · rw [monCfg_resize]; exact hcfg
        · unfold isVisible isVisibleOnTag at hvis ⊢
          rw [htags']
          exact hvis
        · rw [← hbw'] at hb; exact hb
        · rw [← hbw'] at hw1; exact hw1
        · rw [← hbw'] at hw2; exact hw2
        · rw [← hbw'] at hh1; exact hh1
        · rw [← hbw'] at hh2; exact hh2
      · have hne : c2.id ≠ cid := by
          rw [findClient_id m cid2 c2 hc2]
          exact he
        split
        · refine ih _ (by rw [monCfg_resize]; exact hcfg) c
            (by rw [findClient_resize_ne _ _ _ _ _ _ _ _ _ hne]; exact hfc)
            hnh hfl hfs hvis hb hw1 hw2 hh1 hh2 hxb ?_
          rcases hmem with hmem | hmem
          · rcases List.mem_cons.mp hmem with h3 | h3
            · exact absurd h3.symm he
            · exact Or.inl h3
          · exact Or.inr hmem
        · refine ih m hcfg c hfc hnh hfl hfs hvis hb hw1 hw2 hh1 hh2 hxb ?_
          rcases hmem with hmem | hmem
          · rcases List.mem_cons.mp hmem with h3 | h3
            · exact absurd h3.symm he
            · exact Or.inl h3
          · exact Or.inr hmem

end Dwm

namespace Dwm

theorem monCfg_setSymbol (m : Monitor) (s : String) :
    monCfg { m with layoutSymbol := s } = monCfg m := rfl

/-- Fixture for the C6 counterexample: a visible floating client. -/
def c6Float : Client :=
  { baseClient 1 with isFloating := true, x := 10, y := 10, w := 300, h := 200 }

/-- Fixture for the C6 counterexample: a tiled client. -/
def c6Tiled : Client := baseClient 2

/-- Monitor of the C6 counterexample. -/
def c6Mon : Monitor :=
  { baseMonitor .monocleL 0 0 1000 800 with
    clients := [c6Float, c6Tiled], stack := [1, 2], selectedClient := some 1 }

theorem C6_counterexample :
    tiledCount c6Mon = 1 ∧ visibleCount c6Mon = 2 ∧
    (monocle ctx0 c6Mon).layoutSymbol = "[2]" ∧
    ¬ (monocle ctx0 c6Mon).layoutSymbol
        = "[" ++ toString (tiledCount c6Mon) ++ "]" := by
  refine ⟨by decide, by decide, by decide, by decide⟩

theorem C6_monocle (ctx : Ctx) (m : Monitor) (cid : Nat) (c : Client)
    (hml : m.layout = .monocleL)
    (hgx : 0 ≤ m.windowX) (hgy : 0 ≤ m.windowY)
    (hsx : m.windowX ≤ ctx.screenWidth) (hsy : m.windowY ≤ ctx.screenHeight)
    (hfc : findClient m cid = some c)
    (hnh : noHints c) (hfl : c.isFloating = false) (hfs : c.isFullscreen = false)
    (hvis : isVisible m c = true)
    (hb : 0 ≤ c.borderWidth)
    (hw1 : 1 ≤ m.windowWidth - 2 * c.borderWidth)
    (hw2 : ctx.barHeight ≤ m.windowWidth - 2 * c.borderWidth)
    (hh1 : 1 ≤ m.windowHeight - 2 * c.borderWidth)
    (hh2 : ctx.barHeight ≤ m.windowHeight - 2 * c.borderWidth)
    (hxb : c.xBorder = c.borderWidth) :
    (∃ c', findClient (monocle ctx m) cid = some c' ∧
      fillsArea m.windowX m.windowY m.windowWidth m.windowHeight c') ∧
    (0 < visibleCount m →
      (monocle ctx m).layoutSymbol = "[" ++ toString (visibleCount m) ++ "]") := by
  have hmem : cid ∈ m.clients.map Client.id :=
    List.mem_map.mpr ⟨c, findClient_mem _ _ _ hfc, findClient_id _ _ _ hfc⟩
  constructor
  · simp only [monocle]
    split
    · exact monocleLoop_fills ctx m cid hml hgx hgy hsx hsy _
        { m with layoutSymbol := "[" ++ toString (visibleCount m) ++ "]" }
        (monCfg_setSymbol ..) c hfc hnh hfl hfs hvis hb hw1 hw2 hh1 hh2
        (Or.inl hxb) (Or.inl hmem)
    · exact monocleLoop_fills ctx m cid hml hgx hgy hsx hsy _ m rfl c hfc
        hnh hfl hfs hvis hb hw1 hw2 hh1 hh2 (Or.inl hxb) (Or.inl hmem)
  · intro hn
    simp only [monocle, if_pos hn]
    rw [layoutSymbol_monocleLoop]

end Dwm

namespace Dwm

/-- Monitor of the C6 witness: two tiled clients under the monocle layout. -/
def c6wMon : Monitor :=
  { baseMonitor .monocleL 0 0 1000 800 with
    clients := [baseClient 1, baseClient 2], stack := [1, 2],
    selectedClient := some 1 }

theorem C6_witness :
    (∃ c', findClient (monocle ctx0 c6wMon) 1 = some c' ∧
      fillsArea c6wMon.windowX c6wMon.windowY c6wMon.windowWidth
        c6wMon.windowHeight c') ∧
    (0 < visibleCount c6wMon →
      (monocle ctx0 c6wMon).layoutSymbol
        = "[" ++ toString (visibleCount c6wMon) ++ "]") :=
  C6_monocle ctx0 c6wMon 1 (baseClient 1) rfl (by decide) (by decide) (by decide)
    (by decide) (by decide) (by decide) (by decide) (by decide) (by decide)
    (by decide) (by decide) (by decide) (by decide) (by decide) (by decide)

end Dwm

namespace Dwm

/-- A resize whose hint adjustment returns some quadruple with the change flag
set performs the corresponding resizeclient. -/
theorem resize_changed (ctx : Ctx) (m : Monitor) (c : Client) (x y w h : Int)
    (interact : Bool) (g : Geom)
    (hasz : applysizehints ctx m c x y w h interact = (g, true)) :
    resize ctx m c x y w h interact = resizeclient m c g.x g.y g.w g.h := by
  simp only [resize, hasz, if_true]

/-- togglefloating on a selected, non-fullscreen, non-floating, hint-free
client with in-range geometry just sets the floating flag: the interposed
resize is a no-op and the arrange pass leaves the now-floating client
untouched. -/
theorem togglefloating_floats (ctx : Ctx) (m : Monitor) (cid : Nat) (c : Client)
    (hsel : m.selectedClient = some cid)
    (hfc : findClient m cid = some c)
    (hfs : c.isFullscreen = false) (hfl : c.isFloating = false)
    (hbw : c.basew = 0) (hbh : c.baseh = 0) (hiw : c.incw = 0) (hih : c.inch = 0)
    (hxw : c.maxw = 0) (hxh : c.maxh = 0) (hnw : c.minw = 0) (hnh0 : c.minh = 0)
    (hma : c.mina = 0)
    (hw1 : 1 ≤ c.w) (hh1 : 1 ≤ c.h)
    (hwb : ctx.barHeight ≤ c.w) (hhb : ctx.barHeight ≤ c.h)
    (hx1 : c.x < m.windowX + m.windowWidth)
    (hx2 : m.windowX < c.x + c.w + 2 * c.borderWidth)
    (hy1 : c.y < m.windowY + m.windowHeight)
    (hy2 : m.windowY < c.y + c.h + 2 * c.borderWidth)
    (hx3 : c.x ≤ ctx.screenWidth) (hy3 : c.y ≤ ctx.screenHeight)
    (hx4 : 0 ≤ c.x + c.w + 2 * c.borderWidth)
    (hy4 : 0 ≤ c.y + c.h + 2 * c.borderWidth) :
    findClient (togglefloating ctx m) cid = some { c with isFloating := true } ∧
      monCfg (togglefloating ctx m) = monCfg m := by
  have hnfs : ¬ (c.isFullscreen = true) := by simp [hfs]
  have hflag : (!c.isFloating || c.isFixed) = true := by rw [hfl]; simp
  have hnoop : resize ctx (updateClient m { c with isFloating := true })
      ({ c with isFloating := true }) c.x c.y c.w c.h false
      = updateClient m { c with isFloating := true } := by
    apply resize_noop
    exact congrArg Prod.fst (applysizehints_nohints ctx
      (updateClient m { c with isFloating := true })
      ({ c with isFloating := true }) c.x c.y c.w c.h false
      hbw hbh hiw hih hxw hxh hnw hnh0 hma hw1 hh1 hwb hhb
      hx1 hx2 hy1 hy2 hx3 hy3 hx4 hy4)
  simp only [togglefloating, hsel, Option.some_bind, hfc]
  rw [if_neg hnfs]
  simp only [hflag, eq_self_iff_true, if_true]
  rw [hnoop]
  constructor
  · apply arrange_findClient_floating ctx _ cid ({ c with isFloating := true })
      (findClient_updateClient_self m cid c _ hfc rfl) rfl
    intro m' hm'
    have hwx : m'.windowX = m.windowX := monCfg_windowX hm'
    have hwy : m'.windowY = m.windowY := monCfg_windowY hm'
    have hww : m'.windowWidth = m.windowWidth := monCfg_windowWidth hm'
    have hwh : m'.windowHeight = m.windowHeight := monCfg_windowHeight hm'
    exact congrArg Prod.fst (applysizehints_nohints ctx m'
      ({ c with isFloating := true }) c.x c.y c.w c.h false
      hbw hbh hiw hih hxw hxh hnw hnh0 hma hw1 hh1 hwb hhb
      (by rw [hwx, hww]; exact hx1) (by rw [hwx]; exact hx2)
      (by rw [hwy, hwh]; exact hy1) (by rw [hwy]; exact hy2)
      hx3 hy3 hx4 hy4)
  · rw [monCfg_arrange, monCfg_updateClient]

end Dwm

namespace Dwm

/-- C9: in the movemouse motion step with a tiled (arranged) layout, a
selected non-floating, non-fullscreen, hint-free client whose candidate
position (away from the snap edges and inside the clamp ranges) differs from
the current position by more than the snap distance on at least one axis is
first converted to floating by togglefloating and then moved: the resulting
client is floating at the candidate position with its size unchanged. -/
theorem C9_movemouse_autofloat (ctx : Ctx) (m : Monitor) (cid : Nat) (c : Client)
    (dx dy : Int)
    (hsel : m.selectedClient = some cid)
    (hfc : findClient m cid = some c)
    (hfs : c.isFullscreen = false) (hfl : c.isFloating = false)
    (hml : m.layout = LayoutKind.tileL)
    (hbw : c.basew = 0) (hbh : c.baseh = 0) (hiw : c.incw = 0) (hih : c.inch = 0)
    (hxw : c.maxw = 0) (hxh : c.maxh = 0) (hnw : c.minw = 0) (hnh0 : c.minh = 0)
    (hma : c.mina = 0)
    (hw1 : 1 ≤ c.w) (hh1 : 1 ≤ c.h)
    (hwb : ctx.barHeight ≤ c.w) (hhb : ctx.barHeight ≤ c.h)
    (hx1 : c.x < m.windowX + m.windowWidth)
    (hx2 : m.windowX < c.x + c.w + 2 * c.borderWidth)
    (hy1 : c.y < m.windowY + m.windowHeight)
    (hy2 : m.windowY < c.y + c.h + 2 * c.borderWidth)
    (hx3 : c.x ≤ ctx.screenWidth) (hy3 : c.y ≤ ctx.screenHeight)
    (hx4 : 0 ≤ c.x + c.w + 2 * c.borderWidth)
    (hy4 : 0 ≤ c.y + c.h + 2 * c.borderWidth)
    (hx1' : c.x + dx < m.windowX + m.windowWidth)
    (hx2' : m.windowX < c.x + dx + c.w + 2 * c.borderWidth)
    (hy1' : c.y + dy < m.windowY + m.windowHeight)
    (hy2' : m.windowY < c.y + dy + c.h + 2 * c.borderWidth)
    (hx3' : c.x + dx ≤ ctx.screenWidth) (hy3' : c.y + dy ≤ ctx.screenHeight)
    (hx4' : 0 ≤ c.x + dx + c.w + 2 * c.borderWidth)
    (hy4' : 0 ≤ c.y + dy + c.h + 2 * c.borderWidth)
    (hs1 : ¬ |m.windowX - (c.x + dx)| < snap)
    (hs2 : ¬ |(m.windowX + m.windowWidth) - ((c.x + dx) + widthOf c)| < snap)
    (hs3 : ¬ |m.windowY - (c.y + dy)| < snap)
    (hs4 : ¬ |(m.windowY + m.windowHeight) - ((c.y + dy) + heightOf c)| < snap)
    (hmove : snap < |dx| ∨ snap < |dy|) :
    ∃ c', findClient (movemouseMotion ctx m dx dy) cid = some c' ∧
      c'.isFloating = true ∧ c'.x = c.x + dx ∧ c'.y = c.y + dy ∧
      c'.w = c.w ∧ c'.h = c.h := by
  obtain ⟨hfc1, hcfg1⟩ := togglefloating_floats ctx m cid c hsel hfc hfs hfl
    hbw hbh hiw hih hxw hxh hnw hnh0 hma hw1 hh1 hwb hhb
    hx1 hx2 hy1 hy2 hx3 hy3 hx4 hy4
  have hnfs : ¬ (c.isFullscreen = true) := by simp [hfs]
  have hid : c.id = cid := findClient_id m cid c hfc
  have hwx : (togglefloating ctx m).windowX = m.windowX := monCfg_windowX hcfg1
  have hwy : (togglefloating ctx m).windowY = m.windowY := monCfg_windowY hcfg1
  have hww : (togglefloating ctx m).windowWidth = m.windowWidth :=
    monCfg_windowWidth hcfg1
  have hwh : (togglefloating ctx m).windowHeight = m.windowHeight :=
    monCfg_windowHeight hcfg1
  have hasz := applysizehints_nohints ctx (togglefloating ctx m)
    ({ c with isFloating := true }) (c.x + dx) (c.y + dy) c.w c.h true
    hbw hbh hiw hih hxw hxh hnw hnh0 hma hw1 hh1 hwb hhb
    (by rw [hwx, hww]; exact hx1') (by rw [hwx]; exact hx2')
    (by rw [hwy, hwh]; exact hy1') (by rw [hwy]; exact hy2')
    hx3' hy3' hx4' hy4'
  have hflag : ((c.x + dx != ({ c with isFloating := true } : Client).x)
      || (c.y + dy != ({ c with isFloating := true } : Client).y)
      || (c.w != ({ c with isFloating := true } : Client).w)
      || (c.h != ({ c with isFloating := true } : Client).h)) = true := by
    have hne : dx ≠ 0 ∨ dy ≠ 0 := by
      rcases hmove with h | h
      · left; intro he; rw [he, abs_zero] at h; exact absurd h (by norm_num [snap])
      · right; intro he; rw [he, abs_zero] at h; exact absurd h (by norm_num [snap])
    simp only [Bool.or_eq_true, bne_iff_ne, ne_eq]
    omega
  rw [hflag] at hasz
  simp only [movemouseMotion, hsel, Option.some_bind, hfc]
  rw [if_neg hnfs]
  rw [if_neg hs1, if_neg hs2, if_neg hs3, if_neg hs4]
  rw [if_pos (⟨hfl, by rw [hml]; rfl, by
      rcases hmove with h | h
      · left; rw [add_sub_cancel_left]; exact h
      · right; rw [add_sub_cancel_left]; exact h⟩ :
    c.isFloating = false ∧ hasArrange m.layout = true ∧
      (snap < |c.x + dx - c.x| ∨ snap < |c.y + dy - c.y|))]
  rw [hid, hfc1]
  simp only [Option.getD_some, Bool.or_true, eq_self_iff_true, if_true]
  rw [resize_changed ctx (togglefloating ctx m) ({ c with isFloating := true })
    (c.x + dx) (c.y + dy) c.w c.h true ⟨c.x + dx, c.y + dy, c.w, c.h⟩ hasz]
  rw [resizeclient_notborderless _ _ _ _ _ _ (Or.inr (Or.inl rfl))]
  exact ⟨_, findClient_updateClient_self _ cid _ _ hfc1 rfl, rfl, rfl, rfl, rfl, rfl⟩

/-- Client of the C9 witness: hint-free, 300x300 at (100,100), border 1. -/
def c9Client : Client := { baseClient 1 with x := 100, y := 100, w := 300, h := 300 }

/-- Monitor of the C9 witness: tiled layout, the client selected. -/
def c9Mon : Monitor :=
  { baseMonitor .tileL 0 0 1000 1000 with
    clients := [c9Client], stack := [1], selectedClient := some 1 }

/-- C9, witness: a drag of (+40, 0) pixels with snap distance 32 converts the
tiled client to floating and moves it to (140, 100) at unchanged size. -/
theorem C9_witness :
    ∃ c', findClient (movemouseMotion ctx0 c9Mon 40 0) 1 = some c' ∧
      c'.isFloating = true ∧ c'.x = c9Client.x + 40 ∧ c'.y = c9Client.y + 0 ∧
      c'.w = c9Client.w ∧ c'.h = c9Client.h :=
  C9_movemouse_autofloat ctx0 c9Mon 1 c9Client 40 0 rfl (by decide) (by decide)
    (by decide) (by decide) (by decide) (by decide) (by decide) (by decide)
    (by decide) (by decide) (by decide) (by decide) (by decide) (by decide)
    (by decide) (by decide) (by decide) (by decide) (by decide) (by decide)
    (by decide) (by decide) (by decide) (by decide) (by decide) (by decide)
    (by decide) (by decide) (by decide) (by decide) (by decide) (by decide)
    (by decide) (by decide) (by decide) (by decide) (by decide)
    (Or.inl (by decide))

end Dwm

namespace Dwm

/-- Tiled client of the C2 fixtures: hint-free, border 1, initial size 100. -/
def c2Client (i : Nat) : Client := { baseClient i with w := 100, h := 100 }

/-- C2 fixture monitor: n tiled clients, master count nm, window area
1000 x 805 (805 leaves division remainders for 2, 3 and 4 slots). -/
def c2Mon (n nm : Nat) : Monitor :=
  { baseMonitor .tileL 0 0 1000 805 with
    nMaster := nm,
    clients := (List.range n).map (fun i => c2Client (i + 1)) }

/-- Walk a column top-down: succeeds with the final edge when every client
starts exactly where the previous one ended (no gaps, no overlaps). -/
def columnSpans (wy : Int) : List (Int × Int) → Option Int
  | [] => some wy
  | (y, fh) :: rest => if y == wy then columnSpans (wy + fh) rest else none

/-- Partition check for one C2 combination: run tile, split the tiled clients
into the master and stack columns, and require each nonempty column to cover
[windowY, windowY + windowHeight) contiguously with the border-inclusive
footprint heights (stored height plus twice the wire border). -/
def c2ok (n nm : Nat) : Bool :=
  let m := c2Mon n nm
  let m2 := tile ctx0 m
  let tc := m2.clients.filter (fun c => !c.isFloating && isVisible m2 c)
  let k := min (tiledCount m) nm
  let master := (tc.take k).map (fun c => (c.y, c.h + 2 * c.xBorder))
  let stack := (tc.drop k).map (fun c => (c.y, c.h + 2 * c.xBorder))
  (master.isEmpty
    || (columnSpans m.windowY master == some (m.windowY + m.windowHeight)))
  && (stack.isEmpty
    || (columnSpans m.windowY stack == some (m.windowY + m.windowHeight)))

/-- C2: the tile layout partitions the window-area height exactly for n tiled
clients and master count nm, n in {1,2,5} and nm in {0,1,3}: in each nonempty
column the border-inclusive client footprints are contiguous from the top of
the window area to its bottom edge (heights are remaining-height divided by
remaining slots, so the 805-pixel area splits as 268+268+269 over three
master slots and 201+201+201+202 over four stack slots; for a sole tiled
client the borderless branch of resizeclient widens the stored height by the
suppressed border, and the footprint still equals the window height). -/
theorem C2_tile_partition :
    (c2ok 1 0 && c2ok 1 1 && c2ok 1 3
      && c2ok 2 0 && c2ok 2 1 && c2ok 2 3
      && c2ok 5 0 && c2ok 5 1 && c2ok 5 3) = true := by decide

end Dwm

namespace Dwm

/-- C7 counterexample fixture: a dwindle monitor whose window area is only 2
pixels wide, with one tiled client of border width 1. -/
def c7Tiny : Monitor :=
  { baseMonitor .dwindleL 0 0 2 805 with
    clients := [c2Client 1] }

/-- C7 fixture monitor: n tiled border-1 clients on a 1000 x 805 dwindle
window area. -/
def c7Mon (n : Nat) : Monitor :=
  { baseMonitor .dwindleL 0 0 1000 805 with
    clients := (List.range n).map (fun i => c2Client (i + 1)) }

/-- C7, counterexample.  The split guard of dwindle protects only the
halving: when it fails on the very first client (window-area width 2, border
width 1: nw / 2 = 1 is not greater than 2 * borderWidth = 2), the client is
still resized to the initial rectangle minus its borders, here width
2 - 2 = 0 — a non-positive assigned width. -/
theorem C7_counterexample :
    ∃ g ∈ dwindleRects ctx0 c7Tiny, g.w ≤ 0 :=
  ⟨⟨0, 0, 0, 803⟩, by decide, by decide⟩

/-- C7 (amended): on a window area that is large enough for the at most four
width halvings and three height halvings that eight clients can trigger
(1000 x 805 with border width 1), the dwindle arrangement assigns only
rectangles of positive width and height, for every n up to 8; the split
guard skips the halving when the remaining dimension is too small relative
to the border width, and the client then reuses the last-computed rectangle.
For degenerate window areas the first rectangle is not protected by the
guard, see the counterexample. -/
theorem C7_dwindle_positive :
    ((List.range 8).all (fun k =>
      (dwindleRects ctx0 (c7Mon (k + 1))).all
        (fun g => decide (0 < g.w) && decide (0 < g.h)))) = true := by decide

end Dwm

namespace Dwm

/-! Pointer-level model of a monitor's client list for the C1 claim.  The
list-based Monitor embedding above cannot express the next-pointer corruption
that the double attach of updateGeometry creates, so the attach primitives
are re-embedded here at the pointer level: the head pointer, each client's
next pointer (an association list over client ids), the selected client, and
the static per-client fields that attachBelow reads.  A C list traversal
becomes a fuel-bounded pointer walk. -/

/-- The client fields read by attach/attachBelow/nexttagged. -/
structure PtrClient where
  id : Nat
  isFloating : Bool
  tags : Nat
  deriving DecidableEq

/-- A monitor's client list as pointers. -/
structure PtrMonitor where
  clients : Option Nat
  next : List (Nat × Option Nat)
  selectedClient : Option Nat
  info : List PtrClient
  deriving DecidableEq

/-- Read c->next. -/
def ptrNext (m : PtrMonitor) (i : Nat) : Option Nat :=
  match m.next.find? (fun p => p.1 = i) with
  | some p => p.2
  | none => none

/-- Write c->next. -/
def ptrSetNext (m : PtrMonitor) (i : Nat) (v : Option Nat) : PtrMonitor :=
  { m with next := m.next.map (fun p => if p.1 = i then (p.1, v) else p) }

/-- Static fields of a client. -/
def ptrInfo (m : PtrMonitor) (i : Nat) : Option PtrClient :=
  m.info.find? (fun c => c.id = i)

/-- attach of dwm.c (lines 403..408): push the client at the head. -/
def attachPtr (m : PtrMonitor) (c : Nat) : PtrMonitor :=
  let m1 := ptrSetNext m c m.clients
  { m1 with clients := some c }

/-- The nexttagged walk of dwm.c (lines 1240..1247): the first client of the
list that is not floating and shares a tag bit with the given tags word. -/
def nexttaggedPtr (m : PtrMonitor) (ctags : Nat) : Nat → Option Nat → Option Nat
  | 0, _ => none
  | _ + 1, none => none
  | fuel + 1, some w =>
    match ptrInfo m w with
    | none => none
    | some wc =>
      if wc.isFloating || wc.tags &&& ctags == 0 then
        nexttaggedPtr m ctags fuel (ptrNext m w)
      else some w

/-- attachBelow of dwm.c (lines 409..429). -/
def attachBelowPtr (m : PtrMonitor) (c : Nat) (fuel : Nat) : PtrMonitor :=
  let selNullOrFloating :=
    match m.selectedClient.bind (ptrInfo m) with
    | none => true
    | some sc => sc.isFloating
  if selNullOrFloating then
    let ctags := match ptrInfo m c with | some cc => cc.tags | none => 0
    match nexttaggedPtr m ctags fuel m.clients with
    | none => attachPtr m c
    | some a => ptrSetNext (ptrSetNext m c (ptrNext m a)) a (some c)
  else
    match m.selectedClient with
    | none => m
    | some sel => ptrSetNext (ptrSetNext m c (ptrNext m sel)) sel (some c)

/-- One client migration step of the fewer-monitors branch of updateGeometry
(dwm.c lines 2013..2022): after popping the client off the removed monitor
the code calls BOTH attach(c) and attachBelow(c) on the destination. -/
def migratePtr (m : PtrMonitor) (c : Nat) (fuel : Nat) : PtrMonitor :=
  attachBelowPtr (attachPtr m c) c fuel

/-- Fuel-bounded reading of the client list. -/
def ptrList (m : PtrMonitor) : Nat → Option Nat → List Nat
  | 0, _ => []
  | _ + 1, none => []
  | fuel + 1, some i => i :: ptrList m fuel (ptrNext m i)

/-- Destination monitor of the C1 failing input: one non-floating client
(id 2, tag 1) that is also the selected client. -/
def c1Dst : PtrMonitor :=
  { clients := some 2, next := [(1, none), (2, none)], selectedClient := some 2,
    info := [⟨1, false, 1⟩, ⟨2, false, 1⟩] }

/-- Destination monitor of the second C1 scenario: empty list, nothing
selected. -/
def c1Empty : PtrMonitor :=
  { clients := none, next := [(1, none)], selectedClient := none,
    info := [⟨1, false, 1⟩] }

/-- C1 does not hold in the code: the migration step of updateGeometry calls
attach(c) and then also attachBelow(c).  attach makes c the new head with
c->next pointing at the old head; attachBelow then overwrites c->next with
selectedClient->next (NULL here), so every client that was in the list is cut
off: the resident selected client 2 appeared exactly once before the
migration and zero times after it.  On a monitor with nothing selected the
second insertion instead finds c itself as the nexttagged position and sets
c->next = c, a self-loop under which c reads back more than once. -/
theorem C1_migrate_corrupts :
    ((ptrList c1Dst 4 c1Dst.clients).count 2 = 1
      ∧ (ptrList (migratePtr c1Dst 1 8) 8
          (migratePtr c1Dst 1 8).clients).count 2 = 0)
    ∧ 2 ≤ ((ptrList (migratePtr c1Empty 1 8) 4
        (migratePtr c1Empty 1 8).clients).count 1) := by decide

end Dwm
